import Mathlib

/-!
Verification of the Codix round/session transaction engine.

The source is a set of Firebase Cloud Functions operating on a Firestore
document store through serializable transactions, plus a client-side code
generator.  We embed the engine shallowly:

* documents become Lean structures; collections become association lists
  keyed by natural numbers (Firestore auto-generated ids are modelled by a
  monotone `nextId` counter; user documents are keyed by the user id);
* every state-changing entry point becomes a pure function from a store and
  its inputs to `Except ErrKind (response x store)`; a thrown `HttpsError`
  aborts the enclosing Firestore transaction, so an error result carries no
  store mutation (the `step` function keeps the pre-state on error);
* serializable transactions make concurrent executions equivalent to some
  serial order, so reachable states are exactly the states produced by a
  finite sequence of operations applied to the empty store;
* `Math.random` and server timestamps are injected as explicit parameters
  (candidate streams, digit-pick seeds, and `now` arguments);
* fields the engine writes but never reads (user email, createdAt,
  lastLogin, the float wallet balance, the round flag secretCodesGenerated
  and the constant float hint price, modelled in integer cents) are omitted
  or replaced by integer constants.
-/

namespace Codix

/-- Error kinds of the HttpsError taxonomy used by the engine. -/
inductive ErrKind where
  | unauthenticated
  | invalidArgument
  | notFound
  | failedPrecondition
  | resourceExhausted
  | internal
deriving DecidableEq

/-- Status of a payment record. -/
inductive PayStatus where
  | pending
  | completed
  | failed
deriving DecidableEq

/-- A round document. -/
structure Round where
  roundNumber : Nat
  isActive : Bool
  winnerCount : Nat
  maxWinners : Nat
  startTime : Nat
  endTime : Option Nat
deriving DecidableEq

/-- A user profile document (collection users, keyed by the user id). -/
structure UserRec where
  currentRoundId : Option Nat
  isWinnerInCurrentRound : Bool
  hintCount : Nat
  attemptsInCurrentRound : Nat
  lastGuessAttempt : Option Nat
  lastHintRequest : Option Nat
  selectedCode : List Int
  revealedHintDigits : List Nat
deriving DecidableEq

/-- A per-round secret code document (collection userCodes). -/
structure UserCode where
  userId : Nat
  roundId : Nat
  secretCode : List Nat
  isWinner : Bool
  attempts : Nat
  hintPurchases : Nat
  revealedDigits : List Nat
deriving DecidableEq

/-- A winner audit record (collection winners, append-only). -/
structure WinnerRec where
  roundId : Nat
  userId : Nat
  winnerNumber : Nat
  winningTime : Nat
  secretCodeAtWin : List Nat
deriving DecidableEq

/-- A hint payment record (collection payments). -/
structure Payment where
  userId : Nat
  roundId : Nat
  status : PayStatus
  hintProvided : Bool
  requestedDigitIndex : Nat
  transactionId : Option Nat
  paymentInitiatedAt : Nat
  paymentConfirmedAt : Option Nat
deriving DecidableEq

/-- The whole Firestore database visible to the engine. -/
structure Store where
  rounds : List (Nat × Round)
  users : List (Nat × UserRec)
  userCodes : List (Nat × UserCode)
  winners : List (Nat × WinnerRec)
  payments : List (Nat × Payment)
  nextId : Nat
deriving DecidableEq

/-- Lookup of a document by key in a collection. -/
def lookupA {α : Type} (l : List (Nat × α)) (k : Nat) : Option α :=
  (l.find? (fun p => p.1 == k)).map (fun p => p.2)

/-- Update of every document holding a key in a collection. -/
def updateA {α : Type} (l : List (Nat × α)) (k : Nat) (f : α → α) : List (Nat × α) :=
  l.map (fun p => if p.1 == k then (p.1, f p.2) else p)

/-- Response of submitGuess (the message strings are determined by these
fields and are omitted). -/
structure SubmitResp where
  isCorrect : Bool
  isWinner : Bool
  roundEnded : Bool
  winnerNumber : Option Nat
deriving DecidableEq

/-- Response of assignSecretCode: the round id and whether the caller
already had a code; the secret sequence itself is never part of it. -/
structure AssignResp where
  roundId : Nat
  alreadyHadCode : Bool
deriving DecidableEq

/-- Response of requestHint: the price in integer cents of a USDT; the
source returns the constant 0.5 USDT and no secret data. -/
structure HintResp where
  paymentInitiated : Bool
  amountCents : Nat
deriving DecidableEq

/-- Terminal HTTP responses of the confirmPayment webhook endpoint. -/
inductive ConfirmResp where
  | recordNotFound
  | alreadyProcessed
  | notPending
  | userCodeMissing
  | invalidIndex
  | userMissing
  | confirmedOk
deriving DecidableEq

/-- Validation of the guessed code shape: exactly 7 entries, each a digit
0 to 9 (digits are naturals in the embedding). -/
def validGuess (g : List Nat) : Bool :=
  g.length == 7 && g.all (fun d => decide (d ≤ 9))

/-- Two codes are identical when both have length 7 and agree pointwise,
as in the source helper areCodesEqual. -/
def areCodesEqual (c1 c2 : List Nat) : Bool :=
  c1.length == 7 && c2.length == 7 && c1 == c2

/-- Guess rate limiter of submitGuess: window 60000 ms, at most 10
attempts per window, counted since the last attempt; returns the new
value of attemptsInCurrentRound when the attempt is admitted, none when
it is rejected with resource exhaustion.  When the window has elapsed the
counter is first reset to zero and the current attempt is then counted. -/
def rateCheck (attemptsCount : Nat) (lastAttempt : Option Nat) (now : Nat) : Option Nat :=
  match lastAttempt with
  | some t =>
    if now - t < 60000 then
      if attemptsCount ≥ 10 then none else some (attemptsCount + 1)
    else
      some 1
  | none => some 1

/-- A fresh user profile created by assignSecretCode for the active round. -/
def freshUser (rid : Nat) : UserRec :=
  { currentRoundId := some rid
    isWinnerInCurrentRound := false
    hintCount := 0
    attemptsInCurrentRound := 0
    lastGuessAttempt := none
    lastHintRequest := none
    selectedCode := List.replicate 7 (-1)
    revealedHintDigits := [] }

/-- The round-scoped reset applied to an existing user profile by
assignSecretCode, and to the quota-filling winner by submitGuess. -/
def resetUserFields (rid : Option Nat) (u : UserRec) : UserRec :=
  { u with
    currentRoundId := rid
    isWinnerInCurrentRound := false
    hintCount := 0
    attemptsInCurrentRound := 0
    selectedCode := List.replicate 7 (-1)
    revealedHintDigits := [] }

/-- The startRound callable: marks the round with the highest roundNumber
(if any) as ended with a fresh end time, and creates a new active round
numbered one above it, with winnerCount 0 and maxWinners 10. -/
def pickLastRound : List (Nat × Round) → Option (Nat × Round)
  | [] => none
  | x :: t =>
    match pickLastRound t with
    | none => some x
    | some y => if y.2.roundNumber > x.2.roundNumber then some y else some x

def startRound (s : Store) (now : Nat) : Except ErrKind (Nat × Store) :=
  let prev := pickLastRound s.rounds
  let newNumber :=
    match prev with
    | none => 1
    | some (_, lr) => lr.roundNumber + 1
  let rounds1 :=
    match prev with
    | none => s.rounds
    | some (lid, _) =>
      updateA s.rounds lid (fun r => { r with isActive := false, endTime := some now })
  let nid := s.nextId
  let newRound : Round :=
    { roundNumber := newNumber, isActive := true, winnerCount := 0,
      maxWinners := 10, startTime := now, endTime := none }
  Except.ok (nid, { s with rounds := rounds1 ++ [(nid, newRound)], nextId := s.nextId + 1 })

/-- The finishRound callable: ends an active round, rejecting an absent
round with notFound and an already ended round with failedPrecondition. -/
def finishRound (s : Store) (rid : Nat) (now : Nat) : Except ErrKind (Unit × Store) :=
  match lookupA s.rounds rid with
  | none => Except.error ErrKind.notFound
  | some r =>
    if r.isActive then
      let rounds1 := updateA s.rounds rid
        (fun q => { q with isActive := false, endTime := some now })
      Except.ok ((), { s with rounds := rounds1 })
    else
      Except.error ErrKind.failedPrecondition

/-- The assignSecretCode callable.  The unbounded generate-and-retry loop
draws candidates from the injected stream cands (each entry standing for
one call of generateSecretCode); exhausting the stream models a run of the
loop that never commits, reported here as an internal error. -/
def assignSecretCode (s : Store) (uid : Nat) (cands : List (List Nat)) (now : Nat) :
    Except ErrKind (AssignResp × Store) :=
  match s.rounds.find? (fun p => p.2.isActive) with
  | none => Except.error ErrKind.failedPrecondition
  | some (rid, _) =>
    match s.userCodes.find? (fun p => p.2.userId == uid && p.2.roundId == rid) with
    | some _ => Except.ok ({ roundId := rid, alreadyHadCode := true }, s)
    | none =>
      match cands.find?
          (fun c => !(s.userCodes.any (fun p => p.2.roundId == rid && p.2.secretCode == c))) with
      | none => Except.error ErrKind.internal
      | some c =>
        let newCode : UserCode :=
          { userId := uid, roundId := rid, secretCode := c, isWinner := false,
            attempts := 0, hintPurchases := 0, revealedDigits := [] }
        let users1 :=
          match lookupA s.users uid with
          | none => s.users ++ [(uid, freshUser rid)]
          | some _ => updateA s.users uid (resetUserFields (some rid))
        Except.ok ({ roundId := rid, alreadyHadCode := false },
          { s with
            userCodes := s.userCodes ++ [(s.nextId, newCode)],
            users := users1,
            nextId := s.nextId + 1 })

/-- The submitGuess callable, translated clause by clause from the source.
All transaction writes take effect only in the committed (ok) result; any
error aborts the transaction and leaves the store untouched. -/
def submitGuess (s : Store) (uid : Nat) (g : List Nat) (now : Nat) :
    Except ErrKind (SubmitResp × Store) :=
  if !(validGuess g) then Except.error ErrKind.invalidArgument
  else
    match s.rounds.find? (fun p => p.2.isActive) with
    | none => Except.error ErrKind.failedPrecondition
    | some (rid, rd) =>
      match lookupA s.users uid with
      | none => Except.error ErrKind.notFound
      | some u =>
        match s.userCodes.find? (fun p => p.2.userId == uid && p.2.roundId == rid) with
        | none => Except.error ErrKind.failedPrecondition
        | some (ucId, uc) =>
          if u.isWinnerInCurrentRound then Except.error ErrKind.failedPrecondition
          else if uc.isWinner then Except.error ErrKind.failedPrecondition
          else
            match rateCheck u.attemptsInCurrentRound u.lastGuessAttempt now with
            | none => Except.error ErrKind.resourceExhausted
            | some newAttempts =>
              let isCorrect := areCodesEqual g uc.secretCode
              if isCorrect then
                if rd.winnerCount ≥ rd.maxWinners then
                  Except.error ErrKind.failedPrecondition
                else
                  let winnerNumber := rd.winnerCount + 1
                  let roundEnded := winnerNumber == rd.maxWinners
                  let w : WinnerRec :=
                    { roundId := rid, userId := uid, winnerNumber := winnerNumber,
                      winningTime := now, secretCodeAtWin := uc.secretCode }
                  Except.ok
                    ({ isCorrect := true, isWinner := true, roundEnded := roundEnded,
                       winnerNumber := some winnerNumber },
                     { s with
                       rounds := updateA s.rounds rid (fun r =>
                         if roundEnded then
                           { r with winnerCount := r.winnerCount + 1,
                                    isActive := false, endTime := some now }
                         else
                           { r with winnerCount := r.winnerCount + 1 }),
                       users := updateA s.users uid (fun v =>
                         if roundEnded then
                           resetUserFields none { v with lastGuessAttempt := some now }
                         else
                           { v with attemptsInCurrentRound := newAttempts,
                                    lastGuessAttempt := some now,
                                    isWinnerInCurrentRound := true }),
                       userCodes := updateA s.userCodes ucId (fun c =>
                         { c with attempts := c.attempts + 1, isWinner := true }),
                       winners := s.winners ++ [(s.nextId, w)],
                       nextId := s.nextId + 1 })
              else
                Except.ok
                  ({ isCorrect := false, isWinner := false, roundEnded := false,
                     winnerNumber := none },
                   { s with
                     users := updateA s.users uid (fun v =>
                       { v with attemptsInCurrentRound := newAttempts,
                                lastGuessAttempt := some now }),
                     userCodes := updateA s.userCodes ucId (fun c =>
                       { c with attempts := c.attempts + 1 }) })

/-- The requestHint callable: checks user, active round, code record,
winner flags, the hint quota of 3 on hintPurchases, the 10 second
cooldown, then picks a still unrevealed digit position (the random draw is
injected through pick), stamps lastHintRequest and creates a pending
payment record.  Nothing is revealed yet and the response is constant. -/
def requestHint (s : Store) (uid : Nat) (pick : Nat) (now : Nat) :
    Except ErrKind (HintResp × Store) :=
  match lookupA s.users uid with
  | none => Except.error ErrKind.notFound
  | some u =>
    match s.rounds.find? (fun p => p.2.isActive) with
    | none => Except.error ErrKind.failedPrecondition
    | some (rid, _) =>
      match s.userCodes.find? (fun p => p.2.userId == uid && p.2.roundId == rid) with
      | none => Except.error ErrKind.failedPrecondition
      | some (_, uc) =>
        if u.isWinnerInCurrentRound || uc.isWinner then
          Except.error ErrKind.failedPrecondition
        else if uc.hintPurchases ≥ 3 then
          Except.error ErrKind.resourceExhausted
        else if (match u.lastHintRequest with
                 | some t => decide (now - t < 10000)
                 | none => false) then
          Except.error ErrKind.resourceExhausted
        else
          let available := (List.range 7).filter (fun i => !(uc.revealedDigits.contains i))
          if available.length == 0 then
            Except.error ErrKind.failedPrecondition
          else
            let idx := available.getD (pick % available.length) 0
            let pay : Payment :=
              { userId := uid, roundId := rid, status := PayStatus.pending,
                hintProvided := false, requestedDigitIndex := idx,
                transactionId := none, paymentInitiatedAt := now,
                paymentConfirmedAt := none }
            Except.ok ({ paymentInitiated := true, amountCents := 50 },
              { s with
                users := updateA s.users uid (fun v => { v with lastHintRequest := some now }),
                payments := s.payments ++ [(s.nextId, pay)],
                nextId := s.nextId + 1 })

/-- The confirmPayment webhook endpoint.  Every branch produces exactly
one terminal HTTP response; only the fully successful branch commits the
transaction, every other branch leaves the store unchanged (the source
sends the response and then throws, aborting the transaction).  External
gateway verification is hardcoded to succeed in the source. -/
def confirmPayment (s : Store) (pid : Nat) (tid : Nat) (now : Nat) : ConfirmResp × Store :=
  match lookupA s.payments pid with
  | none => (ConfirmResp.recordNotFound, s)
  | some p =>
    if p.status == PayStatus.completed && p.hintProvided then
      (ConfirmResp.alreadyProcessed, s)
    else if !(p.status == PayStatus.pending) then
      (ConfirmResp.notPending, s)
    else
      match s.userCodes.find? (fun q => q.2.userId == p.userId && q.2.roundId == p.roundId) with
      | none => (ConfirmResp.userCodeMissing, s)
      | some (ucId, uc) =>
        if 7 ≤ p.requestedDigitIndex then (ConfirmResp.invalidIndex, s)
        else
          let newRevealed :=
            if uc.revealedDigits.contains p.requestedDigitIndex then
              uc.revealedDigits
            else
              List.insertionSort (fun a b => a ≤ b)
                (uc.revealedDigits ++ [p.requestedDigitIndex])
          match lookupA s.users p.userId with
          | none => (ConfirmResp.userMissing, s)
          | some _ =>
            (ConfirmResp.confirmedOk,
             { s with
               payments := updateA s.payments pid (fun q =>
                 { q with status := PayStatus.completed, transactionId := some tid,
                          paymentConfirmedAt := some now, hintProvided := true }),
               userCodes := updateA s.userCodes ucId (fun c =>
                 { c with hintPurchases := c.hintPurchases + 1,
                          revealedDigits := newRevealed }),
               users := updateA s.users p.userId (fun u =>
                 { u with hintCount := u.hintCount + 1,
                          revealedHintDigits := newRevealed }) })

/-- One serialized engine operation together with its injected inputs
(timestamps, candidate streams, random picks). -/
inductive Op where
  | start (now : Nat)
  | finish (rid now : Nat)
  | assign (uid : Nat) (cands : List (List Nat)) (now : Nat)
  | guess (uid : Nat) (g : List Nat) (now : Nat)
  | hint (uid pick now : Nat)
  | confirm (pid tid now : Nat)

/-- Serialized execution of one operation: a committed transaction yields
the new store, an aborted one keeps the previous store. -/
def step (s : Store) : Op → Store
  | Op.start now =>
    match startRound s now with
    | Except.ok (_, s1) => s1
    | Except.error _ => s
  | Op.finish rid now =>
    match finishRound s rid now with
    | Except.ok (_, s1) => s1
    | Except.error _ => s
  | Op.assign uid cands now =>
    match assignSecretCode s uid cands now with
    | Except.ok (_, s1) => s1
    | Except.error _ => s
  | Op.guess uid g now =>
    match submitGuess s uid g now with
    | Except.ok (_, s1) => s1
    | Except.error _ => s
  | Op.hint uid pick now =>
    match requestHint s uid pick now with
    | Except.ok (_, s1) => s1
    | Except.error _ => s
  | Op.confirm pid tid now => (confirmPayment s pid tid now).2

/-- The empty database. -/
def initStore : Store :=
  { rounds := [], users := [], userCodes := [], winners := [], payments := [], nextId := 0 }

/-- The store reached by a serialized sequence of operations; by
serializability of the Firestore transactions these are exactly the
reachable states of the engine. -/
def runOps (ops : List Op) : Store :=
  ops.foldl step initStore

/-! Client side code generator (codeLogic source file). -/

/-- Sliding window check of the client generator: false exactly when some
window of 4 consecutive digits is constant. -/
def isValidConsecutive : List Nat → Bool
  | a :: b :: c :: d :: rest =>
    if a == b && b == c && c == d then false
    else isValidConsecutive (b :: c :: d :: rest)
  | _ => true

/-- Not all digits identical (false on the empty sequence, as the source
every call is vacuously true there). -/
def isNotAllSame : List Nat → Bool
  | [] => false
  | h :: t => !((h :: t).all (fun d => d == h))

/-- One candidate draw of 7 uniform digits; the injected rand function
stands for the stream of Math.random draws. -/
def mkCand (rand : Nat → Nat) (j : Nat) : List Nat :=
  (List.range 7).map (fun i => rand (7 * j + i) % 10)

/-- Deterministic fallback of the client generator, seeded by the current
time: digit i is (i + t) mod 10. -/
def fallbackCode (t : Nat) : List Nat :=
  (List.range 7).map (fun i => (i + t) % 10)

/-- Acceptance test of one candidate in the client generator loop. -/
def candOk (used : List (List Nat)) (c : List Nat) : Bool :=
  isNotAllSame c && isValidConsecutive c && !(used.contains c)

/-- The client generateValidCode at length 7: up to 1000 candidate draws,
then the deterministic fallback. -/
def generateValidCode (rand : Nat → Nat) (used : List (List Nat)) (t : Nat) : List Nat :=
  match (List.range 1000).find? (fun j => candOk used (mkCand rand j)) with
  | some j => mkCand rand j
  | none => fallbackCode t

/-! Server side code generator (generateSecretCode in the functions
source): an unbounded reject and resample loop with its own validity
checks, written with a distinct digit count and a running counter. -/

/-- Number of distinct digits, the size of new Set(code). -/
def distinctCount (c : List Nat) : Nat := c.dedup.length

/-- The running consecutive repeat counter of generateSecretCode; returns
false as soon as the counter exceeds 3. -/
def consecLoop : Nat → Nat → List Nat → Bool
  | _, _, [] => true
  | prev, count, d :: rest =>
    let c2 := if d == prev then count + 1 else 1
    if c2 > 3 then false else consecLoop d c2 rest

/-- The validity test of generateSecretCode: rule 1 rejects a single
distinct digit, rule 2 rejects a run of more than 3 repeats. -/
def gscValid (c : List Nat) : Bool :=
  !(distinctCount c == 1) &&
  (match c with
   | [] => true
   | d :: rest => consecLoop d 1 rest)

/-- The server generator: first valid candidate among fuel draws (the
source loop is unbounded; none models a run that never returns). -/
def generateSecretCode (rand : Nat → Nat) (fuel : Nat) : Option (List Nat) :=
  ((List.range fuel).map (mkCand rand)).find? gscValid

/-! Definitions supporting the confidentiality statements. -/

/-- Only the response part of an engine result, the data sent back to the
caller. -/
def respOf {α : Type} (r : Except ErrKind (α × Store)) : Except ErrKind α :=
  r.map Prod.fst

/-- Two code records agreeing on everything except the secret sequence. -/
def codeShapeEq (a b : UserCode) : Prop :=
  a.userId = b.userId ∧ a.roundId = b.roundId ∧ a.isWinner = b.isWinner ∧
  a.attempts = b.attempts ∧ a.hintPurchases = b.hintPurchases ∧
  a.revealedDigits = b.revealedDigits

/-- Two winner audit records agreeing on everything except the code
snapshot. -/
def winnerShapeEq (a b : WinnerRec) : Prop :=
  a.roundId = b.roundId ∧ a.userId = b.userId ∧ a.winnerNumber = b.winnerNumber ∧
  a.winningTime = b.winningTime

/-- Two stores that differ only in stored secret digit sequences (in code
records and winner audit snapshots). -/
def secretEquiv (s1 s2 : Store) : Prop :=
  s1.rounds = s2.rounds ∧ s1.users = s2.users ∧ s1.payments = s2.payments ∧
  s1.nextId = s2.nextId ∧
  List.Forall₂ (fun a b => a.1 = b.1 ∧ codeShapeEq a.2 b.2) s1.userCodes s2.userCodes ∧
  List.Forall₂ (fun a b => a.1 = b.1 ∧ winnerShapeEq a.2 b.2) s1.winners s2.winners

/-- The secret sequence stored for a player in a round, if any. -/
def secretOf (s : Store) (uid rid : Nat) : Option (List Nat) :=
  (s.userCodes.find? (fun p => p.2.userId == uid && p.2.roundId == rid)).map
    (fun p => p.2.secretCode)

/-- The store invariant maintained by every serialized operation:
generated keys are fresh and distinct, every round was created with the
quota 10 and its winner count stays within the quota, the winner ranks of
each round are exactly 1..winnerCount in order of creation, and no two
code records of one round hold the same secret sequence. -/
structure Inv (s : Store) : Prop where
  roundKeysLt : ∀ p ∈ s.rounds, p.1 < s.nextId
  codeKeysLt : ∀ p ∈ s.userCodes, p.1 < s.nextId
  payKeysLt : ∀ p ∈ s.payments, p.1 < s.nextId
  winnerRoundLt : ∀ p ∈ s.winners, p.2.roundId < s.nextId
  roundNodup : (s.rounds.map Prod.fst).Nodup
  codeNodup : (s.userCodes.map Prod.fst).Nodup
  payNodup : (s.payments.map Prod.fst).Nodup
  userNodup : (s.users.map Prod.fst).Nodup
  max10 : ∀ p ∈ s.rounds, p.2.maxWinners = 10
  quota : ∀ p ∈ s.rounds, p.2.winnerCount ≤ p.2.maxWinners
  ranks : ∀ p ∈ s.rounds,
    ((s.winners.filter (fun w => w.2.roundId == p.1)).map (fun w => w.2.winnerNumber)) =
      List.range' 1 p.2.winnerCount
  codesUnique : s.userCodes.Pairwise
    (fun a b => a.2.roundId = b.2.roundId → a.2.secretCode ≠ b.2.secretCode)

/-! Concrete fixtures used by the scenario statements and the witnesses. -/

/-- The response of an incorrect committed guess. -/
def loseResp : SubmitResp :=
  { isCorrect := false, isWinner := false, roundEnded := false, winnerNumber := none }

/-- A fresh active round used by the concrete scenarios. -/
def rlRound : Round :=
  { roundNumber := 1, isActive := true, winnerCount := 0, maxWinners := 10,
    startTime := 0, endTime := none }

/-- The profile of the rate limited player, parameterized by its attempt
counter and last guess time. -/
def rlUser (a : Nat) (l : Option Nat) : UserRec :=
  { currentRoundId := some 0, isWinnerInCurrentRound := false, hintCount := 0,
    attemptsInCurrentRound := a, lastGuessAttempt := l, lastHintRequest := none,
    selectedCode := List.replicate 7 (-1), revealedHintDigits := [] }

def rlSecret : List Nat := [0, 1, 2, 3, 4, 5, 9]

def rlGuess : List Nat := [9, 8, 7, 6, 5, 4, 3]

/-- The store of the rate limiter scenario: one active round, one player
with a code record, parameterized by the evolving counters. -/
def rlStore (a : Nat) (l : Option Nat) (m : Nat) : Store :=
  { rounds := [(0, rlRound)],
    users := [(7, rlUser a l)],
    userCodes := [(1,
      { userId := 7, roundId := 0, secretCode := rlSecret, isWinner := false,
        attempts := m, hintPurchases := 0, revealedDigits := [] })],
    winners := [], payments := [], nextId := 2 }

def cxSecret : List Nat := [1, 2, 3, 4, 5, 6, 7]

/-- A store whose active round already holds winnerCount = maxWinners,
with a player whose guess equals the secret: the quota rejection input. -/
def cxStore : Store :=
  { rounds := [(0,
      { roundNumber := 1, isActive := true, winnerCount := 10, maxWinners := 10,
        startTime := 0, endTime := none })],
    users := [(7,
      { currentRoundId := some 0, isWinnerInCurrentRound := false, hintCount := 0,
        attemptsInCurrentRound := 5, lastGuessAttempt := some 0, lastHintRequest := none,
        selectedCode := List.replicate 7 (-1), revealedHintDigits := [] })],
    userCodes := [(1,
      { userId := 7, roundId := 0, secretCode := cxSecret, isWinner := false,
        attempts := 3, hintPurchases := 0, revealedDigits := [] })],
    winners := [], payments := [], nextId := 2 }

/-- A serialized run in which one player opens four pending hint payments
before any confirmation and the webhook then confirms all four. -/
def hintBugOps : List Op :=
  [Op.start 0,
   Op.assign 7 [[0, 1, 2, 3, 4, 5, 6]] 0,
   Op.hint 7 0 0,
   Op.hint 7 1 10000,
   Op.hint 7 2 20000,
   Op.hint 7 3 30000,
   Op.confirm 2 100 40000,
   Op.confirm 3 101 40001,
   Op.confirm 4 102 40002,
   Op.confirm 5 103 40003]

/-- A run that opens a round and assigns one code, used by witnesses. -/
def winOps : List Op :=
  [Op.start 0, Op.assign 7 [[0, 1, 2, 3, 4, 5, 6]] 0]

/-- A run that additionally opens one pending hint payment (id 2). -/
def pendOps : List Op :=
  [Op.start 0, Op.assign 7 [[0, 1, 2, 3, 4, 5, 6]] 0, Op.hint 7 0 5]

/-- A store identical to the rate limiter scenario store except for the
stored secret sequence, used by the confidentiality witness. -/
def eqStore (sc : List Nat) : Store :=
  { rounds := [(0, rlRound)],
    users := [(7, rlUser 0 none)],
    userCodes := [(1,
      { userId := 7, roundId := 0, secretCode := sc, isWinner := false,
        attempts := 0, hintPurchases := 0, revealedDigits := [] })],
    winners := [], payments := [], nextId := 2 }

/-- Two rounds, both already ended; the round with the larger roundNumber
carries a recorded end time that startRound will overwrite. -/
def endedStore : Store :=
  { rounds :=
      [(0, { roundNumber := 1, isActive := false, winnerCount := 10, maxWinners := 10,
             startTime := 0, endTime := some 50 }),
       (1, { roundNumber := 2, isActive := false, winnerCount := 3, maxWinners := 10,
             startTime := 60, endTime := some 90 })],
    users := [], userCodes := [], winners := [], payments := [], nextId := 2 }

/-- The already ended round holding the highest roundNumber in endedStore. -/
def endedTop : Round :=
  { roundNumber := 2, isActive := false, winnerCount := 3, maxWinners := 10,
    startTime := 60, endTime := some 90 }

/-- The response of the first winning guess in the winOps scenario. -/
def winResp : SubmitResp :=
  { isCorrect := true, isWinner := true, roundEnded := false, winnerNumber := some 1 }

/-- The store after the first winning guess in the winOps scenario. -/
def winStore : Store :=
  { rounds := [(0, { roundNumber := 1, isActive := true, winnerCount := 1, maxWinners := 10,
                     startTime := 0, endTime := none })],
    users := [(7, { currentRoundId := some 0, isWinnerInCurrentRound := true, hintCount := 0,
                    attemptsInCurrentRound := 1, lastGuessAttempt := some 9,
                    lastHintRequest := none, selectedCode := List.replicate 7 (-1),
                    revealedHintDigits := [] })],
    userCodes := [(1, { userId := 7, roundId := 0, secretCode := [0, 1, 2, 3, 4, 5, 6],
                        isWinner := true, attempts := 1, hintPurchases := 0,
                        revealedDigits := [] })],
    winners := [(2, { roundId := 0, userId := 7, winnerNumber := 1, winningTime := 9,
                      secretCodeAtWin := [0, 1, 2, 3, 4, 5, 6] })],
    payments := [], nextId := 3 }

/-- The store after the pending hint payment of pendOps is confirmed. -/
def confirmedStore : Store :=
  { rounds := [(0, { roundNumber := 1, isActive := true, winnerCount := 0, maxWinners := 10,
                     startTime := 0, endTime := none })],
    users := [(7, { currentRoundId := some 0, isWinnerInCurrentRound := false, hintCount := 1,
                    attemptsInCurrentRound := 0, lastGuessAttempt := none,
                    lastHintRequest := some 5, selectedCode := List.replicate 7 (-1),
                    revealedHintDigits := [0] })],
    userCodes := [(1, { userId := 7, roundId := 0, secretCode := [0, 1, 2, 3, 4, 5, 6],
                        isWinner := false, attempts := 0, hintPurchases := 1,
                        revealedDigits := [0] })],
    winners := [],
    payments := [(2, { userId := 7, roundId := 0, status := PayStatus.completed,
                       hintProvided := true, requestedDigitIndex := 0,
                       transactionId := some 100, paymentInitiatedAt := 5,
                       paymentConfirmedAt := some 50 })],
    nextId := 3 }

/-- The store produced by startRound on endedStore at time 100. -/
def newRoundStore : Store :=
  { rounds :=
      [(0, { roundNumber := 1, isActive := false, winnerCount := 10, maxWinners := 10,
             startTime := 0, endTime := some 50 }),
       (1, { roundNumber := 2, isActive := false, winnerCount := 3, maxWinners := 10,
             startTime := 60, endTime := some 100 }),
       (2, { roundNumber := 3, isActive := true, winnerCount := 0, maxWinners := 10,
             startTime := 100, endTime := none })],
    users := [], userCodes := [], winners := [], payments := [], nextId := 3 }

/-- The active round of the winOps scenario before any guess. -/
def winRound0 : Round :=
  { roundNumber := 1, isActive := true, winnerCount := 0, maxWinners := 10,
    startTime := 0, endTime := none }

/-- The same round after the first winning guess. -/
def winRound1 : Round :=
  { winRound0 with winnerCount := 1 }

/-- The code record assigned in the winOps scenario before any guess. -/
def winUC0 : UserCode :=
  { userId := 7, roundId := 0, secretCode := [0, 1, 2, 3, 4, 5, 6], isWinner := false,
    attempts := 0, hintPurchases := 0, revealedDigits := [] }

/-- The winOps run extended by the winning guess itself. -/
def winGuessOps : List Op :=
  winOps ++ [Op.guess 7 [0, 1, 2, 3, 4, 5, 6] 9]

/-- The code record of the rate limiter store as a function of its attempt
counter. -/
def rlUC (m : Nat) : UserCode :=
  { userId := 7, roundId := 0, secretCode := rlSecret, isWinner := false,
    attempts := m, hintPurchases := 0, revealedDigits := [] }

/-- The pending payment record opened by the hint request of pendOps. -/
def pendPay : Payment :=
  { userId := 7, roundId := 0, status := PayStatus.pending, hintProvided := false,
    requestedDigitIndex := 0, transactionId := none, paymentInitiatedAt := 5,
    paymentConfirmedAt := none }

/-- Decidable equality of engine results, used to evaluate the model on
concrete inputs. -/
instance {ε α : Type} [DecidableEq ε] [DecidableEq α] : DecidableEq (Except ε α) := fun a b =>
  match a, b with
  | Except.error e1, Except.error e2 =>
    if h : e1 = e2 then isTrue (by rw [h]) else isFalse (fun hc => h (Except.error.inj hc))
  | Except.error _, Except.ok _ => isFalse (fun hc => Except.noConfusion hc)
  | Except.ok _, Except.error _ => isFalse (fun hc => Except.noConfusion hc)
  | Except.ok v1, Except.ok v2 =>
    if h : v1 = v2 then isTrue (by rw [h]) else isFalse (fun hc => h (Except.ok.inj hc))

/-! Association list lemmas. -/

theorem lookupA_nil {α : Type} (k : Nat) : lookupA ([] : List (Nat × α)) k = none := rfl

theorem lookupA_cons {α : Type} (a : Nat × α) (t : List (Nat × α)) (k : Nat) :
    lookupA (a :: t) k = if a.1 = k then some a.2 else lookupA t k := by
  by_cases h : a.1 = k <;> simp [lookupA, List.find?_cons, h]

theorem updateA_cons {α : Type} (a : Nat × α) (t : List (Nat × α)) (k : Nat) (f : α → α) :
    updateA (a :: t) k f = (if a.1 = k then (a.1, f a.2) else a) :: updateA t k f := by
  by_cases h : a.1 = k <;> simp [updateA, h]

theorem keys_updateA {α : Type} (l : List (Nat × α)) (k : Nat) (f : α → α) :
    (updateA l k f).map Prod.fst = l.map Prod.fst := by
  induction l with
  | nil => rfl
  | cons a t ih =>
    rw [updateA_cons, List.map_cons, List.map_cons, ih]
    congr 1
    split <;> rfl

theorem lookupA_updateA {α : Type} (l : List (Nat × α)) (k k2 : Nat) (f : α → α) :
    lookupA (updateA l k f) k2 = if k2 = k then (lookupA l k).map f else lookupA l k2 := by
  induction l with
  | nil =>
    simp only [updateA, List.map_nil, lookupA_nil, Option.map_none']
    split <;> rfl
  | cons a t ih =>
    by_cases hak : a.1 = k
    · rw [updateA_cons, if_pos hak]
      by_cases h2 : k2 = k
      · subst h2
        rw [if_pos rfl, lookupA_cons, lookupA_cons, if_pos hak, if_pos hak]
        rfl
      · rw [if_neg h2, lookupA_cons]
        have ha2 : ¬ a.1 = k2 := by rw [hak]; intro he; exact h2 he.symm
        rw [if_neg ha2, lookupA_cons, if_neg ha2, ih, if_neg h2]
    · rw [updateA_cons, if_neg hak]
      by_cases h2 : a.1 = k2
      · rw [lookupA_cons, if_pos h2]
        by_cases hk2 : k2 = k
        · exact absurd (h2.trans hk2) hak
        · rw [if_neg hk2, lookupA_cons, if_pos h2]
      · rw [lookupA_cons, if_neg h2, ih]
        by_cases hk2 : k2 = k
        · subst hk2
          rw [if_pos rfl, if_pos rfl, lookupA_cons, if_neg hak]
        · rw [if_neg hk2, if_neg hk2, lookupA_cons, if_neg h2]

theorem lookupA_append_left {α : Type} {l1 l2 : List (Nat × α)} {k : Nat} {v : α}
    (h : lookupA l1 k = some v) : lookupA (l1 ++ l2) k = some v := by
  induction l1 with
  | nil => rw [lookupA_nil] at h; cases h
  | cons a t ih =>
    rw [List.cons_append, lookupA_cons]
    rw [lookupA_cons] at h
    by_cases ha : a.1 = k
    · rw [if_pos ha] at h ⊢; exact h
    · rw [if_neg ha] at h ⊢; exact ih h

theorem lookupA_append_right {α : Type} {l1 l2 : List (Nat × α)} {k : Nat}
    (h : lookupA l1 k = none) : lookupA (l1 ++ l2) k = lookupA l2 k := by
  induction l1 with
  | nil => rfl
  | cons a t ih =>
    rw [List.cons_append, lookupA_cons]
    rw [lookupA_cons] at h
    by_cases ha : a.1 = k
    · rw [if_pos ha] at h; cases h
    · rw [if_neg ha] at h ⊢; exact ih h

theorem mem_of_lookupA {α : Type} {l : List (Nat × α)} {k : Nat} {v : α}
    (h : lookupA l k = some v) : (k, v) ∈ l := by
  induction l with
  | nil => rw [lookupA_nil] at h; cases h
  | cons a t ih =>
    rw [lookupA_cons] at h
    by_cases ha : a.1 = k
    · rw [if_pos ha] at h
      cases h
      subst ha
      simp
    · rw [if_neg ha] at h
      exact List.mem_cons_of_mem a (ih h)

theorem lookupA_eq_some_of_mem {α : Type} {l : List (Nat × α)} {k : Nat} {v : α}
    (hnd : (l.map Prod.fst).Nodup) (hm : (k, v) ∈ l) : lookupA l k = some v := by
  induction l with
  | nil => cases hm
  | cons a t ih =>
    simp only [List.map_cons, List.nodup_cons] at hnd
    rw [lookupA_cons]
    rcases List.mem_cons.mp hm with he | ht
    · subst he
      rw [if_pos rfl]
    · have hak : a.1 ≠ k := by
        intro he
        exact hnd.1 (he ▸ (List.mem_map.mpr ⟨(k, v), ht, rfl⟩))
      rw [if_neg hak]
      exact ih hnd.2 ht

theorem val_eq_of_nodup {α : Type} {l : List (Nat × α)} {k : Nat} {v1 v2 : α}
    (hnd : (l.map Prod.fst).Nodup) (h1 : (k, v1) ∈ l) (h2 : (k, v2) ∈ l) : v1 = v2 := by
  have e1 := lookupA_eq_some_of_mem hnd h1
  have e2 := lookupA_eq_some_of_mem hnd h2
  rw [e1] at e2
  cases e2
  rfl

theorem keys_not_mem_of_lookupA_none {α : Type} {l : List (Nat × α)} {k : Nat}
    (h : lookupA l k = none) : k ∉ l.map Prod.fst := by
  intro hk
  obtain ⟨p, hp, he⟩ := List.mem_map.mp hk
  unfold lookupA at h
  cases hf : l.find? (fun p => p.1 == k) with
  | none =>
    have := List.find?_eq_none.mp hf p hp
    exact this (by simp [he])
  | some q => rw [hf] at h; cases h

theorem lookupA_eq_none_of_keysLt {α : Type} {l : List (Nat × α)} {k : Nat} {n : Nat}
    (hlt : ∀ p ∈ l, p.1 < n) (hk : n ≤ k) : lookupA l k = none := by
  unfold lookupA
  rw [List.find?_eq_none.mpr]
  · rfl
  · intro p hp
    simp only [beq_iff_eq]
    intro he
    exact absurd (he ▸ hlt p hp) (by omega)

theorem mem_updateA {α : Type} {l : List (Nat × α)} {k : Nat} {f : α → α} {p : Nat × α}
    (h : p ∈ updateA l k f) :
    (p ∈ l ∧ p.1 ≠ k) ∨ ∃ v, (k, v) ∈ l ∧ p = (k, f v) := by
  unfold updateA at h
  obtain ⟨q, hq, he⟩ := List.mem_map.mp h
  by_cases hqk : q.1 = k
  · right
    refine ⟨q.2, ?_, ?_⟩
    · rw [← hqk]; exact hq
    · rw [← he]; simp [hqk]
  · left
    rw [if_neg (by simp [hqk])] at he
    subst he
    exact ⟨hq, hqk⟩

theorem nodup_keys_snoc {α : Type} {l : List (Nat × α)} {n : Nat} {v : α}
    (hnd : (l.map Prod.fst).Nodup) (hlt : ∀ p ∈ l, p.1 < n) :
    (((l ++ [(n, v)]).map Prod.fst)).Nodup := by
  rw [List.map_append]
  refine List.Nodup.append hnd (List.nodup_singleton n) ?_
  intro x hx hy
  simp only [List.map_cons, List.map_nil, List.mem_singleton] at hy
  obtain ⟨p, hp, he⟩ := List.mem_map.mp hx
  have hplt := hlt p hp
  omega

theorem filter_winners_fresh {ws : List (Nat × WinnerRec)} {n : Nat}
    (h : ∀ p ∈ ws, p.2.roundId < n) :
    ws.filter (fun w => w.2.roundId == n) = [] := by
  rw [List.filter_eq_nil]
  intro p hp
  simp only [beq_iff_eq]
  intro he
  exact absurd (he ▸ h p hp) (lt_irrefl n)

/-! Preservation of the store invariant, one lemma per kind of commit. -/

theorem inv_update_users (s : Store) (k : Nat) (fU : UserRec → UserRec) (h : Inv s) :
    Inv { s with users := updateA s.users k fU } := by
  refine ⟨h.roundKeysLt, h.codeKeysLt, h.payKeysLt, h.winnerRoundLt, h.roundNodup,
    h.codeNodup, h.payNodup, ?_, h.max10, h.quota, h.ranks, h.codesUnique⟩
  show ((updateA s.users k fU).map Prod.fst).Nodup
  rw [keys_updateA]
  exact h.userNodup

theorem inv_update_codes (s : Store) (k : Nat) (fC : UserCode → UserCode)
    (hcr : ∀ c, (fC c).roundId = c.roundId) (hcs : ∀ c, (fC c).secretCode = c.secretCode)
    (h : Inv s) : Inv { s with userCodes := updateA s.userCodes k fC } := by
  refine ⟨h.roundKeysLt, ?_, h.payKeysLt, h.winnerRoundLt, h.roundNodup, ?_,
    h.payNodup, h.userNodup, h.max10, h.quota, h.ranks, ?_⟩
  · intro p hp
    rcases mem_updateA hp with ⟨hm, _⟩ | ⟨v, hv, he⟩
    · exact h.codeKeysLt p hm
    · rw [he]
      exact h.codeKeysLt (k, v) hv
  · show ((updateA s.userCodes k fC).map Prod.fst).Nodup
    rw [keys_updateA]
    exact h.codeNodup
  · show (updateA s.userCodes k fC).Pairwise _
    unfold updateA
    rw [List.pairwise_map]
    have hg2r : ∀ x : Nat × UserCode,
        (if x.1 == k then (x.1, fC x.2) else x).2.roundId = x.2.roundId := by
      intro x; split
      · exact hcr x.2
      · rfl
    have hg2s : ∀ x : Nat × UserCode,
        (if x.1 == k then (x.1, fC x.2) else x).2.secretCode = x.2.secretCode := by
      intro x; split
      · exact hcs x.2
      · rfl
    refine List.Pairwise.imp ?_ h.codesUnique
    intro a b hab hrr
    rw [hg2s a, hg2s b]
    rw [hg2r a, hg2r b] at hrr
    exact hab hrr

theorem inv_update_pays (s : Store) (k : Nat) (fP : Payment → Payment) (h : Inv s) :
    Inv { s with payments := updateA s.payments k fP } := by
  refine ⟨h.roundKeysLt, h.codeKeysLt, ?_, h.winnerRoundLt, h.roundNodup, h.codeNodup,
    ?_, h.userNodup, h.max10, h.quota, h.ranks, h.codesUnique⟩
  · intro p hp
    rcases mem_updateA hp with ⟨hm, _⟩ | ⟨v, hv, he⟩
    · exact h.payKeysLt p hm
    · rw [he]
      exact h.payKeysLt (k, v) hv
  · show ((updateA s.payments k fP).map Prod.fst).Nodup
    rw [keys_updateA]
    exact h.payNodup

theorem inv_update_rounds (s : Store) (k : Nat) (fR : Round → Round)
    (hfc : ∀ r, (fR r).winnerCount = r.winnerCount)
    (hfm : ∀ r, (fR r).maxWinners = r.maxWinners)
    (h : Inv s) : Inv { s with rounds := updateA s.rounds k fR } := by
  refine ⟨?_, h.codeKeysLt, h.payKeysLt, h.winnerRoundLt, ?_, h.codeNodup,
    h.payNodup, h.userNodup, ?_, ?_, ?_, h.codesUnique⟩
  · intro p hp
    rcases mem_updateA hp with ⟨hm, _⟩ | ⟨v, hv, he⟩
    · exact h.roundKeysLt p hm
    · rw [he]
      exact h.roundKeysLt (k, v) hv
  · show ((updateA s.rounds k fR).map Prod.fst).Nodup
    rw [keys_updateA]
    exact h.roundNodup
  · intro p hp
    rcases mem_updateA hp with ⟨hm, _⟩ | ⟨v, hv, he⟩
    · exact h.max10 p hm
    · rw [he]
      show (fR v).maxWinners = 10
      rw [hfm]
      exact h.max10 (k, v) hv
  · intro p hp
    rcases mem_updateA hp with ⟨hm, _⟩ | ⟨v, hv, he⟩
    · exact h.quota p hm
    · rw [he]
      show (fR v).winnerCount ≤ (fR v).maxWinners
      rw [hfm, hfc]
      exact h.quota (k, v) hv
  · intro p hp
    rcases mem_updateA hp with ⟨hm, _⟩ | ⟨v, hv, he⟩
    · exact h.ranks p hm
    · rw [he]
      show (List.map _ (List.filter (fun w => w.2.roundId == k) s.winners)) =
        List.range' 1 (fR v).winnerCount
      rw [hfc]
      exact h.ranks (k, v) hv

theorem inv_new_round (s : Store) (rn now : Nat) (h : Inv s) :
    Inv { s with
      rounds := s.rounds ++ [(s.nextId,
        { roundNumber := rn, isActive := true, winnerCount := 0,
          maxWinners := 10, startTime := now, endTime := none })],
      nextId := s.nextId + 1 } := by
  refine ⟨?_, ?_, ?_, ?_, ?_, h.codeNodup, h.payNodup, h.userNodup, ?_, ?_, ?_, h.codesUnique⟩
  · intro p hp
    rcases List.mem_append.mp hp with hm | hm
    · exact Nat.lt_succ_of_lt (h.roundKeysLt p hm)
    · rw [List.mem_singleton.mp hm]
      exact Nat.lt_succ_self _
  · intro p hp
    exact Nat.lt_succ_of_lt (h.codeKeysLt p hp)
  · intro p hp
    exact Nat.lt_succ_of_lt (h.payKeysLt p hp)
  · intro p hp
    exact Nat.lt_succ_of_lt (h.winnerRoundLt p hp)
  · exact nodup_keys_snoc h.roundNodup h.roundKeysLt
  · intro p hp
    rcases List.mem_append.mp hp with hm | hm
    · exact h.max10 p hm
    · rw [List.mem_singleton.mp hm]
  · intro p hp
    rcases List.mem_append.mp hp with hm | hm
    · exact h.quota p hm
    · rw [List.mem_singleton.mp hm]
      exact Nat.zero_le _
  · intro p hp
    rcases List.mem_append.mp hp with hm | hm
    · exact h.ranks p hm
    · rw [List.mem_singleton.mp hm]
      show (List.map _ (List.filter (fun w => w.2.roundId == s.nextId) s.winners)) =
        List.range' 1 0
      rw [filter_winners_fresh h.winnerRoundLt]
      rfl

theorem inv_win (s : Store) (h : Inv s) (rid : Nat) (rd : Round) (uid : Nat)
    (code : List Nat) (now : Nat)
    (hmem : (rid, rd) ∈ s.rounds) (hlt : rd.winnerCount < rd.maxWinners)
    (fR : Round → Round)
    (hfc : ∀ r, (fR r).winnerCount = r.winnerCount + 1)
    (hfm : ∀ r, (fR r).maxWinners = r.maxWinners) :
    Inv { s with
      rounds := updateA s.rounds rid fR,
      winners := s.winners ++ [(s.nextId,
        { roundId := rid, userId := uid, winnerNumber := rd.winnerCount + 1,
          winningTime := now, secretCodeAtWin := code })],
      nextId := s.nextId + 1 } := by
  have hridlt : rid < s.nextId := h.roundKeysLt (rid, rd) hmem
  refine ⟨?_, ?_, ?_, ?_, ?_, h.codeNodup, h.payNodup, h.userNodup, ?_, ?_, ?_, h.codesUnique⟩
  · intro p hp
    rcases mem_updateA hp with ⟨hm, _⟩ | ⟨v, hv, he⟩
    · exact Nat.lt_succ_of_lt (h.roundKeysLt p hm)
    · rw [he]
      exact Nat.lt_succ_of_lt (h.roundKeysLt (rid, v) hv)
  · intro p hp
    exact Nat.lt_succ_of_lt (h.codeKeysLt p hp)
  · intro p hp
    exact Nat.lt_succ_of_lt (h.payKeysLt p hp)
  · intro p hp
    rcases List.mem_append.mp hp with hm | hm
    · exact Nat.lt_succ_of_lt (h.winnerRoundLt p hm)
    · rw [List.mem_singleton.mp hm]
      exact Nat.lt_succ_of_lt hridlt
  · show ((updateA s.rounds rid fR).map Prod.fst).Nodup
    rw [keys_updateA]
    exact h.roundNodup
  · intro p hp
    rcases mem_updateA hp with ⟨hm, _⟩ | ⟨v, hv, he⟩
    · exact h.max10 p hm
    · rw [he]
      show (fR v).maxWinners = 10
      rw [hfm]
      exact h.max10 (rid, v) hv
  · intro p hp
    rcases mem_updateA hp with ⟨hm, _⟩ | ⟨v, hv, he⟩
    · exact h.quota p hm
    · rw [he]
      have hv2 : v = rd := val_eq_of_nodup h.roundNodup hv hmem
      subst hv2
      show (fR v).winnerCount ≤ (fR v).maxWinners
      rw [hfm, hfc]
      omega
  · intro p hp
    rcases mem_updateA hp with ⟨hm, hne⟩ | ⟨v, hv, he⟩
    · rw [List.filter_append, List.map_append, h.ranks p hm]
      have hone : List.filter (fun w => w.2.roundId == p.1)
          [(s.nextId,
            ({ roundId := rid, userId := uid, winnerNumber := rd.winnerCount + 1,
               winningTime := now, secretCodeAtWin := code } : WinnerRec))] = [] := by
        rw [List.filter_cons_of_neg, List.filter_nil]
        simp only [beq_iff_eq]
        intro he
        exact hne he.symm
      rw [hone]
      simp
    · have hv2 : v = rd := val_eq_of_nodup h.roundNodup hv hmem
      subst hv2
      rw [he]
      rw [List.filter_append, List.map_append]
      show List.map _ (List.filter (fun w => w.2.roundId == rid) s.winners) ++ _ =
        List.range' 1 (fR v).winnerCount
      rw [h.ranks (rid, v) hv, hfc]
      have hone : List.filter (fun w => w.2.roundId == rid)
          [(s.nextId,
            ({ roundId := rid, userId := uid, winnerNumber := v.winnerCount + 1,
               winningTime := now, secretCodeAtWin := code } : WinnerRec))] =
          [(s.nextId,
            ({ roundId := rid, userId := uid, winnerNumber := v.winnerCount + 1,
               winningTime := now, secretCodeAtWin := code } : WinnerRec))] := by
        rw [List.filter_cons_of_pos, List.filter_nil]
        simp
      rw [hone]
      have := @List.range'_concat 1 1 v.winnerCount
      rw [this]
      simp only [List.map_cons, List.map_nil]
      congr 1
      congr 1
      omega

theorem inv_assign_new (s : Store) (uid rid : Nat) (c : List Nat)
    (users1 : List (Nat × UserRec))
    (hnocollide : ∀ p ∈ s.userCodes, ¬(p.2.roundId = rid ∧ p.2.secretCode = c))
    (husers : (users1.map Prod.fst).Nodup)
    (h : Inv s) :
    Inv { s with
      userCodes := s.userCodes ++ [(s.nextId,
        { userId := uid, roundId := rid, secretCode := c, isWinner := false,
          attempts := 0, hintPurchases := 0, revealedDigits := [] })],
      users := users1,
      nextId := s.nextId + 1 } := by
  refine ⟨?_, ?_, ?_, ?_, h.roundNodup, ?_, h.payNodup, husers, h.max10, h.quota, h.ranks, ?_⟩
  · intro p hp
    exact Nat.lt_succ_of_lt (h.roundKeysLt p hp)
  · intro p hp
    rcases List.mem_append.mp hp with hm | hm
    · exact Nat.lt_succ_of_lt (h.codeKeysLt p hm)
    · rw [List.mem_singleton.mp hm]
      exact Nat.lt_succ_self _
  · intro p hp
    exact Nat.lt_succ_of_lt (h.payKeysLt p hp)
  · intro p hp
    exact Nat.lt_succ_of_lt (h.winnerRoundLt p hp)
  · exact nodup_keys_snoc h.codeNodup h.codeKeysLt
  · rw [List.pairwise_append]
    refine ⟨h.codesUnique, List.pairwise_singleton _ _, ?_⟩
    intro a ha b hb
    rw [List.mem_singleton.mp hb]
    intro hrr hss
    exact hnocollide a ha ⟨hrr, hss⟩

theorem inv_hint_new (s : Store) (pay : Payment) (users1 : List (Nat × UserRec))
    (husers : (users1.map Prod.fst).Nodup) (h : Inv s) :
    Inv { s with
      users := users1,
      payments := s.payments ++ [(s.nextId, pay)],
      nextId := s.nextId + 1 } := by
  refine ⟨?_, ?_, ?_, ?_, h.roundNodup, h.codeNodup, ?_, husers, h.max10, h.quota,
    h.ranks, h.codesUnique⟩
  · intro p hp
    exact Nat.lt_succ_of_lt (h.roundKeysLt p hp)
  · intro p hp
    exact Nat.lt_succ_of_lt (h.codeKeysLt p hp)
  · intro p hp
    rcases List.mem_append.mp hp with hm | hm
    · exact Nat.lt_succ_of_lt (h.payKeysLt p hm)
    · rw [List.mem_singleton.mp hm]
      exact Nat.lt_succ_self _
  · intro p hp
    exact Nat.lt_succ_of_lt (h.winnerRoundLt p hp)
  · exact nodup_keys_snoc h.payNodup h.payKeysLt

theorem inv_step_start (s : Store) (now : Nat) (h : Inv s) : Inv (step s (Op.start now)) := by
  cases hp : pickLastRound s.rounds with
  | none =>
    simp [step, startRound, hp]
    exact inv_new_round s 1 now h
  | some pr =>
    obtain ⟨lid, lr⟩ := pr
    simp [step, startRound, hp]
    have h2 := inv_update_rounds s lid
      (fun r => { r with isActive := false, endTime := some now }) (fun r => rfl) (fun r => rfl) h
    exact inv_new_round _ (lr.roundNumber + 1) now h2

theorem inv_step_finish (s : Store) (rid now : Nat) (h : Inv s) :
    Inv (step s (Op.finish rid now)) := by
  cases hl : lookupA s.rounds rid with
  | none =>
    simp [step, finishRound, hl]
    exact h
  | some r =>
    cases ha : r.isActive with
    | false =>
      simp [step, finishRound, hl, ha]
      exact h
    | true =>
      simp [step, finishRound, hl, ha]
      exact inv_update_rounds s rid _ (fun q => rfl) (fun q => rfl) h

theorem inv_step_assign (s : Store) (uid : Nat) (cands : List (List Nat)) (now : Nat)
    (h : Inv s) : Inv (step s (Op.assign uid cands now)) := by
  cases hact : s.rounds.find? (fun p => p.2.isActive) with
  | none =>
    simp [step, assignSecretCode, hact]
    exact h
  | some pr =>
    obtain ⟨rid, rd⟩ := pr
    cases hex : s.userCodes.find? (fun p => p.2.userId == uid && p.2.roundId == rid) with
    | some q =>
      simp [step, assignSecretCode, hact, hex]
      exact h
    | none =>
      cases hc : cands.find?
          (fun c => !(s.userCodes.any (fun p => p.2.roundId == rid && p.2.secretCode == c))) with
      | none =>
        simp [step, assignSecretCode, hact, hex, hc]
        exact h
      | some c =>
        have hcoll : ∀ p ∈ s.userCodes, ¬(p.2.roundId = rid ∧ p.2.secretCode = c) := by
          have hany := List.find?_some hc
          rw [Bool.not_eq_true'] at hany
          intro p hp hand
          have hfa := List.any_eq_false.mp hany p hp
          exact hfa (by simp [hand.1, hand.2])
        cases hu : lookupA s.users uid with
        | none =>
          simp [step, assignSecretCode, hact, hex, hc, hu]
          have hnd : ((s.users ++ [(uid, freshUser rid)]).map Prod.fst).Nodup := by
            rw [List.map_append]
            refine List.Nodup.append h.userNodup (List.nodup_singleton _) ?_
            intro x hx hy
            simp only [List.map_cons, List.map_nil, List.mem_singleton] at hy
            rw [hy] at hx
            exact keys_not_mem_of_lookupA_none hu hx
          exact inv_assign_new s uid rid c _ hcoll hnd h
        | some u0 =>
          simp [step, assignSecretCode, hact, hex, hc, hu]
          have hnd : ((updateA s.users uid (resetUserFields (some rid))).map Prod.fst).Nodup := by
            rw [keys_updateA]
            exact h.userNodup
          exact inv_assign_new s uid rid c _ hcoll hnd h

theorem inv_step_guess (s : Store) (uid : Nat) (g : List Nat) (now : Nat) (h : Inv s) :
    Inv (step s (Op.guess uid g now)) := by
  cases hval : validGuess g with
  | false =>
    simp [step, submitGuess, hval]
    exact h
  | true =>
    cases hact : s.rounds.find? (fun p => p.2.isActive) with
    | none =>
      simp [step, submitGuess, hval, hact]
      exact h
    | some pr =>
      obtain ⟨rid, rd⟩ := pr
      cases hu : lookupA s.users uid with
      | none =>
        simp [step, submitGuess, hval, hact, hu]
        exact h
      | some u =>
        cases huc : s.userCodes.find? (fun p => p.2.userId == uid && p.2.roundId == rid) with
        | none =>
          simp [step, submitGuess, hval, hact, hu, huc]
          exact h
        | some qc =>
          obtain ⟨ucId, uc⟩ := qc
          cases huw : u.isWinnerInCurrentRound with
          | true =>
            simp [step, submitGuess, hval, hact, hu, huc, huw]
            exact h
          | false =>
            cases hcw : uc.isWinner with
            | true =>
              simp [step, submitGuess, hval, hact, hu, huc, huw, hcw]
              exact h
            | false =>
              cases hrc : rateCheck u.attemptsInCurrentRound u.lastGuessAttempt now with
              | none =>
                simp [step, submitGuess, hval, hact, hu, huc, huw, hcw, hrc]
                exact h
              | some newAttempts =>
                cases hcor : areCodesEqual g uc.secretCode with
                | false =>
                  simp only [step, submitGuess, hval, hact, hu, huc, huw, hcw, hrc, hcor,
                    Bool.not_true, Bool.false_eq_true, Bool.true_eq_false, if_false, if_true]
                  exact inv_update_codes _ ucId
                    (fun c => { c with attempts := c.attempts + 1 })
                    (fun c => rfl) (fun c => rfl)
                    (inv_update_users s uid
                      (fun v => { v with attemptsInCurrentRound := newAttempts,
                                         lastGuessAttempt := some now }) h)
                | true =>
                  by_cases hq : rd.winnerCount ≥ rd.maxWinners
                  · simp only [step, submitGuess, hval, hact, hu, huc, huw, hcw, hrc, hcor,
                      Bool.not_true, Bool.false_eq_true, Bool.true_eq_false, if_false, if_true,
                      if_pos hq]
                    exact h
                  · simp only [step, submitGuess, hval, hact, hu, huc, huw, hcw, hrc, hcor,
                      Bool.not_true, Bool.false_eq_true, Bool.true_eq_false, if_false, if_true,
                      if_neg hq]
                    have hmem : (rid, rd) ∈ s.rounds := List.mem_of_find?_eq_some hact
                    have hlt : rd.winnerCount < rd.maxWinners := lt_of_not_ge hq
                    have hcomp :=
                      inv_update_codes _ ucId
                        (fun c => { c with attempts := c.attempts + 1, isWinner := true })
                        (fun c => rfl) (fun c => rfl)
                        (inv_update_users s uid
                          (fun v =>
                            if rd.winnerCount + 1 == rd.maxWinners then
                              resetUserFields none { v with lastGuessAttempt := some now }
                            else
                              { v with
                                attemptsInCurrentRound := newAttempts
                                lastGuessAttempt := some now
                                isWinnerInCurrentRound := true }) h)
                    exact inv_win _ hcomp rid rd uid uc.secretCode now hmem hlt
                      (fun r =>
                        if rd.winnerCount + 1 == rd.maxWinners then
                          { r with
                            winnerCount := r.winnerCount + 1
                            isActive := false
                            endTime := some now }
                        else
                          { r with winnerCount := r.winnerCount + 1 })
                      (fun r => by split <;> rfl) (fun r => by split <;> rfl)

theorem inv_step_hint (s : Store) (uid pick now : Nat) (h : Inv s) :
    Inv (step s (Op.hint uid pick now)) := by
  cases hu : lookupA s.users uid with
  | none =>
    simp [step, requestHint, hu]
    exact h
  | some u =>
    cases hact : s.rounds.find? (fun p => p.2.isActive) with
    | none =>
      simp [step, requestHint, hu, hact]
      exact h
    | some pr =>
      obtain ⟨rid, rd⟩ := pr
      cases huc : s.userCodes.find? (fun p => p.2.userId == uid && p.2.roundId == rid) with
      | none =>
        simp [step, requestHint, hu, hact, huc]
        exact h
      | some qc =>
        obtain ⟨ucId, uc⟩ := qc
        cases hw : u.isWinnerInCurrentRound || uc.isWinner with
        | true =>
          simp [step, requestHint, hu, hact, huc, hw]
          exact h
        | false =>
          have hnd : ((updateA s.users uid
              (fun v => { v with lastHintRequest := some now })).map Prod.fst).Nodup := by
            rw [keys_updateA]
            exact h.userNodup
          have hfin : Inv { s with
              users := updateA s.users uid (fun v => { v with lastHintRequest := some now }),
              payments := s.payments ++ [(s.nextId,
                { userId := uid, roundId := rid, status := PayStatus.pending,
                  hintProvided := false,
                  requestedDigitIndex :=
                    ((List.range 7).filter (fun i => !(uc.revealedDigits.contains i))).getD
                      (pick % ((List.range 7).filter
                        (fun i => !(uc.revealedDigits.contains i))).length) 0,
                  transactionId := none, paymentInitiatedAt := now,
                  paymentConfirmedAt := none })],
              nextId := s.nextId + 1 } :=
            inv_hint_new s _ _ hnd h
          by_cases hq : uc.hintPurchases ≥ 3
          · simp only [step, requestHint, hu, hact, huc, hw,
              Bool.not_true, Bool.false_eq_true, Bool.true_eq_false, if_false, if_true,
              if_pos hq]
            exact h
          · cases hlr : u.lastHintRequest with
            | none =>
              cases hav : ((List.range 7).filter
                  (fun i => !(uc.revealedDigits.contains i))).length == 0 with
              | true =>
                simp only [step, requestHint, hu, hact, huc, hw, hlr, hav,
                  Bool.not_true, Bool.false_eq_true, Bool.true_eq_false, if_false, if_true,
                  if_neg hq]
                exact h
              | false =>
                simp only [step, requestHint, hu, hact, huc, hw, hlr, hav,
                  Bool.not_true, Bool.false_eq_true, Bool.true_eq_false, if_false, if_true,
                  if_neg hq]
                exact hfin
            | some t =>
              cases hcd : decide (now - t < 10000) with
              | true =>
                simp only [step, requestHint, hu, hact, huc, hw, hlr, hcd,
                  Bool.not_true, Bool.false_eq_true, Bool.true_eq_false, if_false, if_true,
                  if_neg hq]
                exact h
              | false =>
                cases hav : ((List.range 7).filter
                    (fun i => !(uc.revealedDigits.contains i))).length == 0 with
                | true =>
                  simp only [step, requestHint, hu, hact, huc, hw, hlr, hcd, hav,
                    Bool.not_true, Bool.false_eq_true, Bool.true_eq_false, if_false, if_true,
                    if_neg hq]
                  exact h
                | false =>
                  simp only [step, requestHint, hu, hact, huc, hw, hlr, hcd, hav,
                    Bool.not_true, Bool.false_eq_true, Bool.true_eq_false, if_false, if_true,
                    if_neg hq]
                  exact hfin

theorem inv_step_confirm (s : Store) (pid tid now : Nat) (h : Inv s) :
    Inv (step s (Op.confirm pid tid now)) := by
  cases hp : lookupA s.payments pid with
  | none =>
    simp [step, confirmPayment, hp]
    exact h
  | some p =>
    cases hst : (p.status == PayStatus.completed && p.hintProvided) with
    | true =>
      simp [step, confirmPayment, hp, hst]
      exact h
    | false =>
      cases hpend : (p.status == PayStatus.pending) with
      | false =>
        simp [step, confirmPayment, hp, hst, hpend]
        exact h
      | true =>
        cases huc : s.userCodes.find?
            (fun q => q.2.userId == p.userId && q.2.roundId == p.roundId) with
        | none =>
          simp [step, confirmPayment, hp, hst, hpend, huc]
          exact h
        | some qc =>
          obtain ⟨ucId, uc⟩ := qc
          by_cases hidx : 7 ≤ p.requestedDigitIndex
          · simp only [step, confirmPayment, hp, hst, hpend, huc,
              Bool.not_true, Bool.false_eq_true, Bool.true_eq_false, if_false, if_true,
              Bool.not_false, if_pos hidx]
            exact h
          · cases hu : lookupA s.users p.userId with
            | none =>
              simp only [step, confirmPayment, hp, hst, hpend, huc,
                Bool.not_true, Bool.false_eq_true, Bool.true_eq_false, if_false, if_true,
                Bool.not_false, if_neg hidx, hu]
              exact h
            | some u =>
              simp only [step, confirmPayment, hp, hst, hpend, huc,
                Bool.not_true, Bool.false_eq_true, Bool.true_eq_false, if_false, if_true,
                Bool.not_false, if_neg hidx, hu]
              exact inv_update_users _ p.userId
                (fun u2 =>
                  { u2 with
                    hintCount := u2.hintCount + 1
                    revealedHintDigits :=
                      if uc.revealedDigits.contains p.requestedDigitIndex then
                        uc.revealedDigits
                      else
                        List.insertionSort (fun a b => a ≤ b)
                          (uc.revealedDigits ++ [p.requestedDigitIndex]) })
                (inv_update_codes _ ucId
                  (fun c =>
                    { c with
                      hintPurchases := c.hintPurchases + 1
                      revealedDigits :=
                        if uc.revealedDigits.contains p.requestedDigitIndex then
                          uc.revealedDigits
                        else
                          List.insertionSort (fun a b => a ≤ b)
                            (uc.revealedDigits ++ [p.requestedDigitIndex]) })
                  (fun c => rfl) (fun c => rfl)
                  (inv_update_pays s pid
                    (fun q =>
                      { q with
                        status := PayStatus.completed
                        transactionId := some tid
                        paymentConfirmedAt := some now
                        hintProvided := true }) h))

theorem inv_step (s : Store) (op : Op) (h : Inv s) : Inv (step s op) := by
  cases op with
  | start now => exact inv_step_start s now h
  | finish rid now => exact inv_step_finish s rid now h
  | assign uid cands now => exact inv_step_assign s uid cands now h
  | guess uid g now => exact inv_step_guess s uid g now h
  | hint uid pick now => exact inv_step_hint s uid pick now h
  | confirm pid tid now => exact inv_step_confirm s pid tid now h

theorem inv_init : Inv initStore :=
  ⟨fun p hp => absurd hp (List.not_mem_nil p),
   fun p hp => absurd hp (List.not_mem_nil p),
   fun p hp => absurd hp (List.not_mem_nil p),
   fun p hp => absurd hp (List.not_mem_nil p),
   List.nodup_nil, List.nodup_nil, List.nodup_nil, List.nodup_nil,
   fun p hp => absurd hp (List.not_mem_nil p),
   fun p hp => absurd hp (List.not_mem_nil p),
   fun p hp => absurd hp (List.not_mem_nil p),
   List.Pairwise.nil⟩

theorem inv_fold (ops : List Op) : ∀ s, Inv s → Inv (ops.foldl step s) := by
  induction ops with
  | nil => intro s h; exact h
  | cons op t ih =>
    intro s h
    exact ih _ (inv_step s op h)

theorem inv_runOps (ops : List Op) : Inv (runOps ops) :=
  inv_fold ops initStore inv_init

/-! Lemmas about the two code generators. -/

theorem dedup_all_same : ∀ (t : List Nat) (h : Nat),
    ((h :: t).all (fun d => d == h) = true) → (h :: t).dedup = [h] := by
  intro t
  induction t with
  | nil => intro h _; rfl
  | cons x t2 ih =>
    intro h hall
    simp only [List.all_cons, Bool.and_eq_true, beq_iff_eq] at hall
    obtain ⟨hhh, hx, ht⟩ := hall
    have ih2 : (h :: t2).dedup = [h] := by
      apply ih
      simp only [List.all_cons, Bool.and_eq_true, beq_iff_eq]
      exact ⟨trivial, ht⟩
    have hmem : h ∈ x :: t2 := by
      rw [hx]
      exact List.mem_cons_self h t2
    calc (h :: x :: t2).dedup
        = (x :: t2).dedup := List.dedup_cons_of_mem hmem
      _ = (h :: t2).dedup := by rw [hx]
      _ = [h] := ih2

theorem gsc_rule1 {h : Nat} {t : List Nat} (hv : ¬((h :: t).dedup.length = 1)) :
    isNotAllSame (h :: t) = true := by
  cases hb : (h :: t).all (fun d => d == h) with
  | false => simp [isNotAllSame, hb]
  | true =>
    exfalso
    apply hv
    rw [dedup_all_same t h hb]
    rfl

theorem consec_bridge7 (a b c d e f g : Nat)
    (h : consecLoop a 1 [b, c, d, e, f, g] = true) :
    isValidConsecutive [a, b, c, d, e, f, g] = true := by
  simp only [consecLoop, isValidConsecutive] at *
  by_cases hab : b = a <;> by_cases hbc : c = b <;> by_cases hcd : d = c <;>
    by_cases hde : e = d <;> by_cases hef : f = e <;> by_cases hfg : g = f <;>
    simp_all <;> omega

theorem mkCand_length (rand : Nat → Nat) (j : Nat) : (mkCand rand j).length = 7 := by
  simp [mkCand]

theorem mkCand_expand (rand : Nat → Nat) (j : Nat) :
    mkCand rand j =
      [rand (7 * j + 0) % 10, rand (7 * j + 1) % 10, rand (7 * j + 2) % 10,
       rand (7 * j + 3) % 10, rand (7 * j + 4) % 10, rand (7 * j + 5) % 10,
       rand (7 * j + 6) % 10] := rfl

theorem generateSecretCode_spec (rand : Nat → Nat) (fuel : Nat) (c : List Nat)
    (h : generateSecretCode rand fuel = some c) :
    isNotAllSame c = true ∧ isValidConsecutive c = true ∧ c.length = 7 := by
  unfold generateSecretCode at h
  have hv := List.find?_some h
  have hm := List.mem_of_find?_eq_some h
  obtain ⟨j, hj, he⟩ := List.mem_map.mp hm
  subst he
  unfold gscValid at hv
  rw [Bool.and_eq_true] at hv
  obtain ⟨h1, h2⟩ := hv
  rw [mkCand_expand] at h1 h2 ⊢
  refine ⟨?_, ?_, rfl⟩
  · apply gsc_rule1
    rw [Bool.not_eq_true'] at h1
    simp only [distinctCount] at h1
    rw [beq_eq_false_iff_ne] at h1
    exact h1
  · exact consec_bridge7 _ _ _ _ _ _ _ h2

theorem fallbackCode_mod (t : Nat) : fallbackCode t = fallbackCode (t % 10) := by
  unfold fallbackCode
  apply List.map_congr_left
  intro i _
  omega

theorem fallbackCode_valid_small : ∀ r ∈ List.range 10,
    (isNotAllSame (fallbackCode r) && isValidConsecutive (fallbackCode r)) = true := by
  decide

theorem fallbackCode_valid (t : Nat) :
    isNotAllSame (fallbackCode t) = true ∧ isValidConsecutive (fallbackCode t) = true := by
  rw [fallbackCode_mod]
  have hmem : t % 10 ∈ List.range 10 :=
    List.mem_range.mpr (Nat.mod_lt t (by omega))
  have := fallbackCode_valid_small (t % 10) hmem
  rw [Bool.and_eq_true] at this
  exact this

theorem fallbackCode_length (t : Nat) : (fallbackCode t).length = 7 := by
  simp [fallbackCode]

/-! The rate limiter scenario: one step of submitGuess on the scenario
store behaves exactly as the rate check dictates. -/

theorem submitGuess_rl (a m : Nat) (l : Option Nat) (t : Nat) :
    submitGuess (rlStore a l m) 7 rlGuess t =
      match rateCheck a l t with
      | none => Except.error ErrKind.resourceExhausted
      | some a2 => Except.ok (loseResp, rlStore a2 (some t) (m + 1)) := by
  cases hr : rateCheck a l t with
  | none =>
    simp [submitGuess, rlStore, rlRound, rlUser, rlSecret, rlGuess, validGuess,
      areCodesEqual, lookupA, List.find?, hr]
  | some a2 =>
    simp [submitGuess, rlStore, rlRound, rlUser, rlSecret, rlGuess, validGuess,
      areCodesEqual, lookupA, updateA, List.find?, hr, loseResp]

/-! Confidentiality: responses do not depend on the stored secrets. -/

theorem find?_rel {α : Type} {R : α → α → Prop} {p q : α → Bool}
    (hpq : ∀ a b, R a b → p a = q b) :
    ∀ {l1 l2 : List α}, List.Forall₂ R l1 l2 →
      (l1.find? p = none ∧ l2.find? q = none) ∨
      (∃ a b, l1.find? p = some a ∧ l2.find? q = some b ∧ R a b) := by
  intro l1 l2 hrel
  induction hrel with
  | nil => exact Or.inl ⟨rfl, rfl⟩
  | @cons a b l1x l2x hab htl ih =>
    cases hpa : p a with
    | true =>
      right
      refine ⟨a, b, List.find?_cons_of_pos _ hpa, List.find?_cons_of_pos _ ?_, hab⟩
      rw [← hpq a b hab]
      exact hpa
    | false =>
      have hqb : ¬(q b = true) := by
        rw [← hpq a b hab, hpa]
        simp
      rw [List.find?_cons_of_neg _ (by rw [hpa]; simp), List.find?_cons_of_neg _ hqb]
      exact ih

theorem requestHint_det (s1 s2 : Store) (uid pick now : Nat) (h : secretEquiv s1 s2) :
    respOf (requestHint s1 uid pick now) = respOf (requestHint s2 uid pick now) := by
  obtain ⟨hr, hu, hp, hn, hcodes, hwins⟩ := h
  cases hul : lookupA s1.users uid with
  | none => simp [requestHint, respOf, Except.map, ← hu, hul]
  | some u =>
    cases hact : s1.rounds.find? (fun p => p.2.isActive) with
    | none => simp [requestHint, respOf, Except.map, ← hu, ← hr, hul, hact]
    | some pr =>
      obtain ⟨rid, rd⟩ := pr
      have hpq : ∀ a b : Nat × UserCode, (a.1 = b.1 ∧ codeShapeEq a.2 b.2) →
          ((a.2.userId == uid && a.2.roundId == rid)) =
          ((b.2.userId == uid && b.2.roundId == rid)) := by
        intro a b hab
        rw [hab.2.1, hab.2.2.1]
      rcases find?_rel hpq hcodes with ⟨hn1, hn2⟩ | ⟨pa, pb, hf1, hf2, hab⟩
      · simp [requestHint, respOf, Except.map, ← hu, ← hr, hul, hact, hn1, hn2]
      · obtain ⟨i1, uc1⟩ := pa
        obtain ⟨i2, uc2⟩ := pb
        obtain ⟨hkey, hshape⟩ := hab
        obtain ⟨hsu, hsr, hsw, hsa, hsh, hsd⟩ := hshape
        have hw2 : uc1.isWinner = uc2.isWinner := hsw
        have hh2 : uc1.hintPurchases = uc2.hintPurchases := hsh
        have hd2 : uc1.revealedDigits = uc2.revealedDigits := hsd
        cases huw : u.isWinnerInCurrentRound with
        | true =>
          simp [requestHint, respOf, Except.map, ← hu, ← hr, hul, hact, hf1, hf2, huw]
        | false =>
          cases hcw : uc1.isWinner with
          | true =>
            simp [requestHint, respOf, Except.map, ← hu, ← hr, hul, hact, hf1, hf2, ← hw2, huw, hcw]
          | false =>
            by_cases hq : uc1.hintPurchases ≥ 3
            · simp [requestHint, respOf, Except.map, ← hu, ← hr, hul, hact, hf1, hf2, ← hw2, ← hh2,
                huw, hcw, hq]
            · cases hclr : u.lastHintRequest with
              | some t0 =>
                by_cases hcool : now - t0 < 10000
                · simp [requestHint, respOf, Except.map, ← hu, ← hr, hul, hact, hf1, hf2, ← hw2, ← hh2,
                    ← hd2, huw, hcw, hq, hclr, hcool]
                · simp [requestHint, respOf, Except.map, ← hu, ← hr, hul, hact, hf1, hf2,
                    ← hw2, ← hh2, ← hd2, huw, hcw, hq, hclr, hcool]
                  by_cases havail : ∀ a < 7, a ∈ uc1.revealedDigits
                  · rw [if_pos havail, if_pos havail]
                  · rw [if_neg havail, if_neg havail]
              | none =>
                simp [requestHint, respOf, Except.map, ← hu, ← hr, hul, hact, hf1, hf2,
                  ← hw2, ← hh2, ← hd2, huw, hcw, hq, hclr]
                by_cases havail : ∀ a < 7, a ∈ uc1.revealedDigits
                · rw [if_pos havail, if_pos havail]
                · rw [if_neg havail, if_neg havail]

theorem submitGuess_det (s1 s2 : Store) (uid : Nat) (g : List Nat) (now : Nat)
    (h : secretEquiv s1 s2)
    (hbit : ∀ rid : Nat, (secretOf s1 uid rid).map (fun c => areCodesEqual g c) =
        (secretOf s2 uid rid).map (fun c => areCodesEqual g c)) :
    respOf (submitGuess s1 uid g now) = respOf (submitGuess s2 uid g now) := by
  obtain ⟨hr, hu, hp, hn, hcodes, hwins⟩ := h
  cases hv : validGuess g with
  | false => simp [submitGuess, respOf, Except.map, hv]
  | true =>
    cases hact : s1.rounds.find? (fun p => p.2.isActive) with
    | none => simp [submitGuess, respOf, Except.map, ← hr, hv, hact]
    | some pr =>
      obtain ⟨rid, rd⟩ := pr
      cases hul : lookupA s1.users uid with
      | none => simp [submitGuess, respOf, Except.map, ← hu, ← hr, hv, hact, hul]
      | some u =>
        have hpq : ∀ a b : Nat × UserCode, (a.1 = b.1 ∧ codeShapeEq a.2 b.2) →
            ((a.2.userId == uid && a.2.roundId == rid)) =
            ((b.2.userId == uid && b.2.roundId == rid)) := by
          intro a b hab
          rw [hab.2.1, hab.2.2.1]
        rcases find?_rel hpq hcodes with ⟨hn1, hn2⟩ | ⟨pa, pb, hf1, hf2, hab⟩
        · simp [submitGuess, respOf, Except.map, ← hu, ← hr, hv, hact, hul, hn1, hn2]
        · obtain ⟨i1, uc1⟩ := pa
          obtain ⟨i2, uc2⟩ := pb
          obtain ⟨hkey, hshape⟩ := hab
          obtain ⟨hsu, hsr, hsw, hsa, hsh, hsd⟩ := hshape
          have hw2 : uc1.isWinner = uc2.isWinner := hsw
          have hb : areCodesEqual g uc1.secretCode = areCodesEqual g uc2.secretCode := by
            have hbb := hbit rid
            unfold secretOf at hbb
            rw [hf1, hf2] at hbb
            simpa using hbb
          cases huw : u.isWinnerInCurrentRound with
          | true =>
            simp [submitGuess, respOf, Except.map, ← hu, ← hr, hv, hact, hul, hf1, hf2, huw]
          | false =>
            cases hcw : uc1.isWinner with
            | true =>
              simp [submitGuess, respOf, Except.map, ← hu, ← hr, hv, hact, hul, hf1, hf2, ← hw2,
                huw, hcw]
            | false =>
              cases hrc : rateCheck u.attemptsInCurrentRound u.lastGuessAttempt now with
              | none =>
                simp [submitGuess, respOf, Except.map, ← hu, ← hr, hv, hact, hul, hf1, hf2, ← hw2,
                  huw, hcw, hrc]
              | some a2 =>
                cases hco : areCodesEqual g uc1.secretCode with
                | false =>
                  simp [submitGuess, respOf, Except.map, ← hu, ← hr, hv, hact, hul, hf1, hf2, ← hw2,
                    huw, hcw, hrc, ← hb, hco]
                | true =>
                  by_cases hq : rd.winnerCount ≥ rd.maxWinners
                  · simp [submitGuess, respOf, Except.map, ← hu, ← hr, hv, hact, hul, hf1, hf2, ← hw2,
                      huw, hcw, hrc, ← hb, hco, hq]
                  · simp [submitGuess, respOf, Except.map, ← hu, ← hr, hv, hact, hul, hf1, hf2, ← hw2,
                      huw, hcw, hrc, ← hb, hco, hq]

theorem assignCode_det (s1 s2 : Store) (uid : Nat) (cands : List (List Nat)) (now : Nat)
    (h : secretEquiv s1 s2) (r1 r2 : AssignResp) (t1 t2 : Store)
    (h1 : assignSecretCode s1 uid cands now = Except.ok (r1, t1))
    (h2 : assignSecretCode s2 uid cands now = Except.ok (r2, t2)) : r1 = r2 := by
  obtain ⟨hr, hu, hp, hn, hcodes, hwins⟩ := h
  rw [show s2 = s2 from rfl] at h2
  cases hact : s1.rounds.find? (fun p => p.2.isActive) with
  | none =>
    rw [assignSecretCode, hact] at h1
    cases h1
  | some pr =>
    obtain ⟨rid, rd⟩ := pr
    have hpq : ∀ a b : Nat × UserCode, (a.1 = b.1 ∧ codeShapeEq a.2 b.2) →
        ((a.2.userId == uid && a.2.roundId == rid)) =
        ((b.2.userId == uid && b.2.roundId == rid)) := by
      intro a b hab
      rw [hab.2.1, hab.2.2.1]
    rcases find?_rel hpq hcodes with ⟨hn1, hn2⟩ | ⟨pa, pb, hf1, hf2, hab⟩
    · simp only [assignSecretCode, hact, hn1] at h1
      simp only [assignSecretCode, ← hr, hact, hn2] at h2
      cases hc1 : cands.find?
          (fun c => !(s1.userCodes.any (fun p => p.2.roundId == rid && p.2.secretCode == c))) with
      | none => rw [hc1] at h1; cases h1
      | some c1 =>
        rw [hc1] at h1
        cases hc2 : cands.find?
            (fun c => !(s2.userCodes.any (fun p => p.2.roundId == rid && p.2.secretCode == c))) with
        | none => rw [hc2] at h2; cases h2
        | some c2 =>
          rw [hc2] at h2
          have e1 : ({ roundId := rid, alreadyHadCode := false } : AssignResp) = r1 := by
            have := Except.ok.inj h1
            exact congrArg Prod.fst this
          have e2 : ({ roundId := rid, alreadyHadCode := false } : AssignResp) = r2 := by
            have := Except.ok.inj h2
            exact congrArg Prod.fst this
          rw [← e1, ← e2]
    · simp only [assignSecretCode, hact, hf1] at h1
      simp only [assignSecretCode, ← hr, hact, hf2] at h2
      have e1 : ({ roundId := rid, alreadyHadCode := true } : AssignResp) = r1 := by
        have := Except.ok.inj h1
        exact congrArg Prod.fst this
      have e2 : ({ roundId := rid, alreadyHadCode := true } : AssignResp) = r2 := by
        have := Except.ok.inj h2
        exact congrArg Prod.fst this
      rw [← e1, ← e2]

theorem generateValidCode_spec (rand : Nat → Nat) (used : List (List Nat)) (t : Nat) :
    isNotAllSame (generateValidCode rand used t) = true ∧
    isValidConsecutive (generateValidCode rand used t) = true ∧
    (generateValidCode rand used t).length = 7 := by
  unfold generateValidCode
  cases hf : (List.range 1000).find? (fun j => candOk used (mkCand rand j)) with
  | none =>
    exact ⟨(fallbackCode_valid t).1, (fallbackCode_valid t).2, fallbackCode_length t⟩
  | some j =>
    have hv := List.find?_some hf
    unfold candOk at hv
    rw [Bool.and_eq_true, Bool.and_eq_true] at hv
    exact ⟨hv.1.1, hv.1.2, mkCand_length rand j⟩

/-! Lemmas about startRound and the round selection it performs. -/

theorem pickLastRound_spec : ∀ (l : List (Nat × Round)) (m : Nat × Round),
    pickLastRound l = some m → m ∈ l ∧ ∀ p ∈ l, p.2.roundNumber ≤ m.2.roundNumber := by
  intro l
  induction l with
  | nil => intro m hm; cases hm
  | cons x t ih =>
    intro m hm
    unfold pickLastRound at hm
    cases hp : pickLastRound t with
    | none =>
      simp only [hp] at hm
      cases hm
      have ht : t = [] := by
        cases t with
        | nil => rfl
        | cons y t2 =>
          unfold pickLastRound at hp
          cases hp2 : pickLastRound t2 with
          | none => simp only [hp2] at hp; cases hp
          | some z =>
            simp only [hp2] at hp
            by_cases hgt : z.2.roundNumber > y.2.roundNumber
            · rw [if_pos hgt] at hp; cases hp
            · rw [if_neg hgt] at hp; cases hp
      subst ht
      refine ⟨List.mem_cons_self x [], ?_⟩
      intro p hp2
      rcases List.mem_cons.mp hp2 with he | ht2
      · rw [he]
      · cases ht2
    | some y =>
      simp only [hp] at hm
      obtain ⟨hymem, hymax⟩ := ih y hp
      by_cases hgt : y.2.roundNumber > x.2.roundNumber
      · rw [if_pos hgt] at hm
        cases hm
        refine ⟨List.mem_cons_of_mem x hymem, ?_⟩
        intro p hp2
        rcases List.mem_cons.mp hp2 with he | ht2
        · rw [he]; exact le_of_lt hgt
        · exact hymax p ht2
      · rw [if_neg hgt] at hm
        cases hm
        refine ⟨List.mem_cons_self x t, ?_⟩
        intro p hp2
        rcases List.mem_cons.mp hp2 with he | ht2
        · rw [he]
        · have := hymax p ht2
          omega

theorem startRound_effect (s : Store) (now : Nat) (i : Nat) (r : Round)
    (nid : Nat) (s1 : Store)
    (hpick : pickLastRound s.rounds = some (i, r))
    (hkeys : ∀ p ∈ s.rounds, p.1 < s.nextId)
    (hnd : (s.rounds.map Prod.fst).Nodup)
    (hok : startRound s now = Except.ok (nid, s1)) :
    nid = s.nextId ∧
    lookupA s1.rounds i = some { r with isActive := false, endTime := some now } ∧
    lookupA s1.rounds s.nextId = some
      { roundNumber := r.roundNumber + 1, isActive := true, winnerCount := 0,
        maxWinners := 10, startTime := now, endTime := none } := by
  have hilt : i < s.nextId := hkeys (i, r) (pickLastRound_spec s.rounds (i, r) hpick).1
  simp only [startRound, hpick, Except.ok.injEq, Prod.mk.injEq] at hok
  obtain ⟨hn, hs⟩ := hok
  refine ⟨hn.symm, ?_, ?_⟩
  · rw [← hs]
    show lookupA (updateA s.rounds i _ ++ _) i = _
    apply lookupA_append_left
    rw [lookupA_updateA, if_pos rfl,
      lookupA_eq_some_of_mem hnd (pickLastRound_spec s.rounds (i, r) hpick).1]
    rfl
  · rw [← hs]
    show lookupA (updateA s.rounds i _ ++ _) s.nextId = _
    rw [lookupA_append_right, lookupA_cons]
    · rw [if_pos rfl]
    · rw [lookupA_updateA, if_neg (by omega)]
      apply lookupA_eq_none_of_keysLt hkeys
      exact le_refl _

/-! Commit effects of submitGuess on the attempt counters and the winner
records, for stores where the relevant lookups are known. -/

theorem submitGuess_commit_attempts (s : Store) (uid : Nat) (g : List Nat) (now : Nat)
    (r : SubmitResp) (s1 : Store) (rid : Nat) (rd : Round) (ucId : Nat) (uc : UserCode)
    (u : UserRec) (a2 : Nat)
    (hcodes : (s.userCodes.map Prod.fst).Nodup)
    (hact : s.rounds.find? (fun p => p.2.isActive) = some (rid, rd))
    (huc : s.userCodes.find? (fun p => p.2.userId == uid && p.2.roundId == rid) =
      some (ucId, uc))
    (hu : lookupA s.users uid = some u)
    (hrc : rateCheck u.attemptsInCurrentRound u.lastGuessAttempt now = some a2)
    (hok : submitGuess s uid g now = Except.ok (r, s1)) :
    (lookupA s1.userCodes ucId).map (fun c => c.attempts) = some (uc.attempts + 1) ∧
    (lookupA s1.users uid).map (fun v => v.attemptsInCurrentRound) =
      some (if r.roundEnded then 0 else a2) := by
  have hucl : lookupA s.userCodes ucId = some uc :=
    lookupA_eq_some_of_mem hcodes (List.mem_of_find?_eq_some huc)
  cases hval : validGuess g with
  | false => simp [submitGuess, hval] at hok
  | true =>
    cases huw : u.isWinnerInCurrentRound with
    | true => simp [submitGuess, hval, hact, hu, huc, huw] at hok
    | false =>
      cases hcw : uc.isWinner with
      | true => simp [submitGuess, hval, hact, hu, huc, huw, hcw] at hok
      | false =>
        cases hco : areCodesEqual g uc.secretCode with
        | false =>
          simp only [submitGuess, hval, hact, hu, huc, huw, hcw, hrc, hco,
            Bool.not_true, Bool.false_eq_true, Bool.true_eq_false, if_false, if_true,
            Except.ok.injEq, Prod.mk.injEq] at hok
          obtain ⟨hr, hs⟩ := hok
          rw [← hs, ← hr]
          constructor
          · show (lookupA (updateA s.userCodes ucId
                (fun c => { c with attempts := c.attempts + 1 })) ucId).map
                (fun c => c.attempts) = some (uc.attempts + 1)
            rw [lookupA_updateA, if_pos rfl, hucl]
            rfl
          · show (lookupA (updateA s.users uid
                (fun v => { v with attemptsInCurrentRound := a2,
                                   lastGuessAttempt := some now })) uid).map
                (fun v => v.attemptsInCurrentRound) = _
            rw [lookupA_updateA, if_pos rfl, hu]
            rfl
        | true =>
          by_cases hq : rd.winnerCount ≥ rd.maxWinners
          · simp [submitGuess, hval, hact, hu, huc, huw, hcw, hrc, hco, if_pos hq] at hok
          · simp only [submitGuess, hval, hact, hu, huc, huw, hcw, hrc, hco,
              Bool.not_true, Bool.false_eq_true, Bool.true_eq_false, if_false, if_true,
              if_neg hq, Except.ok.injEq, Prod.mk.injEq] at hok
            obtain ⟨hr, hs⟩ := hok
            rw [← hs, ← hr]
            constructor
            · show (lookupA (updateA s.userCodes ucId
                  (fun c => { c with attempts := c.attempts + 1, isWinner := true })) ucId).map
                  (fun c => c.attempts) = some (uc.attempts + 1)
              rw [lookupA_updateA, if_pos rfl, hucl]
              rfl
            · show (lookupA (updateA s.users uid
                  (fun v =>
                    if rd.winnerCount + 1 == rd.maxWinners then
                      resetUserFields none { v with lastGuessAttempt := some now }
                    else
                      { v with attemptsInCurrentRound := a2,
                               lastGuessAttempt := some now,
                               isWinnerInCurrentRound := true })) uid).map
                  (fun v => v.attemptsInCurrentRound) = _
              rw [lookupA_updateA, if_pos rfl, hu]
              cases hre : (rd.winnerCount + 1 == rd.maxWinners) with
              | true => simp [hre, resetUserFields]
              | false => simp [hre]

theorem submitGuess_commit_winner (s : Store) (uid : Nat) (g : List Nat) (now : Nat)
    (r : SubmitResp) (s1 : Store) (rid : Nat) (rd : Round) (ucId : Nat) (uc : UserCode)
    (u : UserRec)
    (hinv : Inv s)
    (hact : s.rounds.find? (fun p => p.2.isActive) = some (rid, rd))
    (huc : s.userCodes.find? (fun p => p.2.userId == uid && p.2.roundId == rid) =
      some (ucId, uc))
    (hu : lookupA s.users uid = some u)
    (hok : submitGuess s uid g now = Except.ok (r, s1))
    (hcor : r.isCorrect = true) :
    s1.winners = s.winners ++ [(s.nextId,
      { roundId := rid, userId := uid, winnerNumber := rd.winnerCount + 1,
        winningTime := now, secretCodeAtWin := uc.secretCode })] ∧
    (lookupA s1.rounds rid).map (fun q => q.winnerCount) = some (rd.winnerCount + 1) ∧
    r.winnerNumber = some (rd.winnerCount + 1) := by
  have hrl : lookupA s.rounds rid = some rd :=
    lookupA_eq_some_of_mem hinv.roundNodup (List.mem_of_find?_eq_some hact)
  cases hval : validGuess g with
  | false => simp [submitGuess, hval] at hok
  | true =>
    cases huw : u.isWinnerInCurrentRound with
    | true => simp [submitGuess, hval, hact, hu, huc, huw] at hok
    | false =>
      cases hcw : uc.isWinner with
      | true => simp [submitGuess, hval, hact, hu, huc, huw, hcw] at hok
      | false =>
        cases hrc : rateCheck u.attemptsInCurrentRound u.lastGuessAttempt now with
        | none => simp [submitGuess, hval, hact, hu, huc, huw, hcw, hrc] at hok
        | some a2 =>
          cases hco : areCodesEqual g uc.secretCode with
          | false =>
            simp only [submitGuess, hval, hact, hu, huc, huw, hcw, hrc, hco,
              Bool.not_true, Bool.false_eq_true, Bool.true_eq_false, if_false, if_true,
              Except.ok.injEq, Prod.mk.injEq] at hok
            obtain ⟨hr, hs⟩ := hok
            rw [← hr] at hcor
            cases hcor
          | true =>
            by_cases hq : rd.winnerCount ≥ rd.maxWinners
            · simp [submitGuess, hval, hact, hu, huc, huw, hcw, hrc, hco, if_pos hq] at hok
            · simp only [submitGuess, hval, hact, hu, huc, huw, hcw, hrc, hco,
                Bool.not_true, Bool.false_eq_true, Bool.true_eq_false, if_false, if_true,
                if_neg hq, Except.ok.injEq, Prod.mk.injEq] at hok
              obtain ⟨hr, hs⟩ := hok
              rw [← hs, ← hr]
              refine ⟨rfl, ?_, rfl⟩
              show (lookupA (updateA s.rounds rid
                  (fun q =>
                    if rd.winnerCount + 1 == rd.maxWinners then
                      { q with winnerCount := q.winnerCount + 1,
                               isActive := false, endTime := some now }
                    else
                      { q with winnerCount := q.winnerCount + 1 })) rid).map
                  (fun q => q.winnerCount) = some (rd.winnerCount + 1)
              rw [lookupA_updateA, if_pos rfl, hrl]
              cases hre : (rd.winnerCount + 1 == rd.maxWinners) with
              | true => simp [hre]
              | false => simp [hre]

/-! The retry safety of confirmPayment. -/

theorem confirmPayment_retry (s : Store) (pid tid now tid2 now2 : Nat) (s1 : Store)
    (p : Payment) (ucId : Nat) (uc : UserCode)
    (hcodes : (s.userCodes.map Prod.fst).Nodup)
    (hp : lookupA s.payments pid = some p)
    (hf : s.userCodes.find? (fun q => q.2.userId == p.userId && q.2.roundId == p.roundId) =
      some (ucId, uc))
    (h : confirmPayment s pid tid now = (ConfirmResp.confirmedOk, s1)) :
    confirmPayment s1 pid tid2 now2 = (ConfirmResp.alreadyProcessed, s1) ∧
    (lookupA s1.userCodes ucId).map (fun c => c.hintPurchases) =
      some (uc.hintPurchases + 1) ∧
    (lookupA s1.userCodes ucId).map (fun c => c.revealedDigits) = some
      (if uc.revealedDigits.contains p.requestedDigitIndex then uc.revealedDigits
       else List.insertionSort (fun a b => a ≤ b)
         (uc.revealedDigits ++ [p.requestedDigitIndex])) := by
  have hucl : lookupA s.userCodes ucId = some uc :=
    lookupA_eq_some_of_mem hcodes (List.mem_of_find?_eq_some hf)
  cases hst : (p.status == PayStatus.completed && p.hintProvided) with
  | true => simp [confirmPayment, hp, hst] at h
  | false =>
    cases hpend : (p.status == PayStatus.pending) with
    | false => simp [confirmPayment, hp, hst, hpend] at h
    | true =>
      by_cases hidx : 7 ≤ p.requestedDigitIndex
      · simp [confirmPayment, hp, hst, hpend, hf, if_pos hidx] at h
      · cases hu : lookupA s.users p.userId with
        | none => simp [confirmPayment, hp, hst, hpend, hf, if_neg hidx, hu] at h
        | some u =>
          simp only [confirmPayment, hp, hst, hpend, hf, if_neg hidx, hu,
            Bool.not_true, Bool.false_eq_true, Bool.true_eq_false, if_false, if_true,
            Bool.not_false, Prod.mk.injEq, true_and] at h
          rw [← h]
          refine ⟨?_, ?_, ?_⟩
          · have hpl : lookupA (updateA s.payments pid (fun q =>
                { q with status := PayStatus.completed, transactionId := some tid,
                         paymentConfirmedAt := some now, hintProvided := true })) pid =
                some { p with status := PayStatus.completed, transactionId := some tid,
                              paymentConfirmedAt := some now, hintProvided := true } := by
              rw [lookupA_updateA, if_pos rfl, hp]
              rfl
            simp [confirmPayment, hpl]
          · show (lookupA (updateA s.userCodes ucId (fun c => { c with hintPurchases := c.hintPurchases + 1, revealedDigits := (if uc.revealedDigits.contains p.requestedDigitIndex then uc.revealedDigits else List.insertionSort (fun a b => a ≤ b) (uc.revealedDigits ++ [p.requestedDigitIndex])) })) ucId).map (fun c => c.hintPurchases) = some (uc.hintPurchases + 1)
            rw [lookupA_updateA, if_pos rfl, hucl]
            rfl
          · show (lookupA (updateA s.userCodes ucId (fun c => { c with hintPurchases := c.hintPurchases + 1, revealedDigits := (if uc.revealedDigits.contains p.requestedDigitIndex then uc.revealedDigits else List.insertionSort (fun a b => a ≤ b) (uc.revealedDigits ++ [p.requestedDigitIndex])) })) ucId).map (fun c => c.revealedDigits) = _
            rw [lookupA_updateA, if_pos rfl, hucl]
            rfl

/-! The claim theorems.  Each one is stated over the embedding above and
settles one claim of the specification review. -/

/-- C1: for every reachable store state (every serialized run of engine
operations from the initial store), every round carries the quota
maxWinners = 10 and its winnerCount never exceeds that quota; the
serialized runs cover every interleaving the transactional engine admits. -/
theorem winner_quota_invariant (ops : List Op) :
    ∀ p ∈ (runOps ops).rounds, p.2.winnerCount ≤ p.2.maxWinners ∧ p.2.maxWinners = 10 :=
  fun p hp => ⟨(inv_runOps ops).quota p hp, (inv_runOps ops).max10 p hp⟩

theorem winner_quota_invariant_witness :
    winRound0.winnerCount ≤ winRound0.maxWinners ∧ winRound0.maxWinners = 10 :=
  winner_quota_invariant winOps (0, winRound0) (by decide)

/-- C2: in every reachable store the winner ranks recorded for a round are
exactly the gapless sequence 1..winnerCount, and every committed correct
guess appends exactly one winner record whose rank is the incremented
winner count, which is also the rank reported to the caller. -/
theorem winner_ranks (ops : List Op) (p : Nat × Round)
    (hp : p ∈ (runOps ops).rounds)
    (s : Store) (uid : Nat) (g : List Nat) (now : Nat)
    (r : SubmitResp) (s1 : Store) (rid : Nat) (rd : Round) (ucId : Nat) (uc : UserCode)
    (u : UserRec)
    (hinv : Inv s)
    (hact : s.rounds.find? (fun q => q.2.isActive) = some (rid, rd))
    (huc : s.userCodes.find? (fun q => q.2.userId == uid && q.2.roundId == rid) =
      some (ucId, uc))
    (hu : lookupA s.users uid = some u)
    (hok : submitGuess s uid g now = Except.ok (r, s1))
    (hcor : r.isCorrect = true) :
    (((runOps ops).winners.filter (fun w => w.2.roundId == p.1)).map
        (fun w => w.2.winnerNumber)) = List.range' 1 p.2.winnerCount ∧
    s1.winners = s.winners ++ [(s.nextId,
      { roundId := rid, userId := uid, winnerNumber := rd.winnerCount + 1,
        winningTime := now, secretCodeAtWin := uc.secretCode })] ∧
    (lookupA s1.rounds rid).map (fun q => q.winnerCount) = some (rd.winnerCount + 1) ∧
    r.winnerNumber = some (rd.winnerCount + 1) :=
  ⟨(inv_runOps ops).ranks p hp,
   submitGuess_commit_winner s uid g now r s1 rid rd ucId uc u hinv hact huc hu hok hcor⟩

theorem winner_ranks_witness :
    (((runOps winGuessOps).winners.filter (fun w => w.2.roundId == (0 : Nat))).map
        (fun w => w.2.winnerNumber)) = List.range' 1 winRound1.winnerCount ∧
    winStore.winners = (runOps winOps).winners ++ [((runOps winOps).nextId,
      { roundId := 0, userId := 7, winnerNumber := winRound0.winnerCount + 1,
        winningTime := 9, secretCodeAtWin := winUC0.secretCode })] ∧
    (lookupA winStore.rounds 0).map (fun q => q.winnerCount) =
      some (winRound0.winnerCount + 1) ∧
    winResp.winnerNumber = some (winRound0.winnerCount + 1) :=
  winner_ranks winGuessOps (0, winRound1) (by decide)
    (runOps winOps) 7 [0, 1, 2, 3, 4, 5, 6] 9 winResp winStore 0 winRound0 1 winUC0
    (freshUser 0) (inv_runOps winOps) (by decide) (by decide) (by decide) (by decide)
    (by decide)

/-- C3, counterexample: a call that passes the rate limiter (the check
yields the incremented counter 6) with a correct guess against a round
whose winnerCount already equals the quota is rejected with a
precondition error, and the rejection aborts the whole transaction: the
store is unchanged, so neither attempt counter was incremented, refuting
the claim that the increments persist across a quota-grounds rejection. -/
theorem attempts_not_charged_cex :
    rateCheck 5 (some 0) 10 = some 6 ∧
    areCodesEqual cxSecret cxSecret = true ∧
    submitGuess cxStore 7 cxSecret 10 = Except.error ErrKind.failedPrecondition ∧
    step cxStore (Op.guess 7 cxSecret 10) = cxStore ∧
    (lookupA cxStore.users 7).map (fun v => v.attemptsInCurrentRound) = some 5 ∧
    (lookupA cxStore.userCodes 1).map (fun c => c.attempts) = some 3 := by decide

/-- C3, amended: in every submitGuess call that passes the rate limiter
and commits, both attempt counters are incremented (the player counter is
additionally reset to zero when the call closes the round); on any error
the transaction aborts and no increment survives, so a quota-grounds
rejection charges nothing. -/
theorem attempts_charged_amended (s : Store) (uid : Nat) (g : List Nat) (now : Nat)
    (r : SubmitResp) (s1 : Store) (rid : Nat) (rd : Round) (ucId : Nat) (uc : UserCode)
    (u : UserRec) (a2 : Nat)
    (hcodes : (s.userCodes.map Prod.fst).Nodup)
    (hact : s.rounds.find? (fun q => q.2.isActive) = some (rid, rd))
    (huc : s.userCodes.find? (fun q => q.2.userId == uid && q.2.roundId == rid) =
      some (ucId, uc))
    (hu : lookupA s.users uid = some u)
    (hrc : rateCheck u.attemptsInCurrentRound u.lastGuessAttempt now = some a2)
    (hok : submitGuess s uid g now = Except.ok (r, s1)) :
    (lookupA s1.userCodes ucId).map (fun c => c.attempts) = some (uc.attempts + 1) ∧
    (lookupA s1.users uid).map (fun v => v.attemptsInCurrentRound) =
      some (if r.roundEnded then 0 else a2) :=
  submitGuess_commit_attempts s uid g now r s1 rid rd ucId uc u a2
    hcodes hact huc hu hrc hok

theorem attempts_charged_amended_witness :
    (lookupA (rlStore 1 (some 5) 1).userCodes 1).map (fun c => c.attempts) =
      some ((rlUC 0).attempts + 1) ∧
    (lookupA (rlStore 1 (some 5) 1).users 7).map (fun v => v.attemptsInCurrentRound) =
      some (if loseResp.roundEnded then 0 else 1) :=
  attempts_charged_amended (rlStore 0 none 0) 7 rlGuess 5 loseResp
    (rlStore 1 (some 5) 1) 0 rlRound 1 (rlUC 0) (rlUser 0 none) 1
    (by decide) (by decide) (by decide) (by decide) (by decide) (by decide)

/-- C4: confirmPayment is retry safe: after a successful confirmation of a
pending payment, a second call for the same payment record answers with
the terminal alreadyProcessed response and performs no mutation, the
revealed digit position having been appended at most once and
hintPurchases incremented by exactly one in total. -/
theorem confirm_payment_retry_safe (s : Store) (pid tid now tid2 now2 : Nat)
    (s1 : Store) (p : Payment) (ucId : Nat) (uc : UserCode)
    (hcodes : (s.userCodes.map Prod.fst).Nodup)
    (hp : lookupA s.payments pid = some p)
    (hf : s.userCodes.find?
        (fun q => q.2.userId == p.userId && q.2.roundId == p.roundId) = some (ucId, uc))
    (h : confirmPayment s pid tid now = (ConfirmResp.confirmedOk, s1)) :
    confirmPayment s1 pid tid2 now2 = (ConfirmResp.alreadyProcessed, s1) ∧
    (lookupA s1.userCodes ucId).map (fun c => c.hintPurchases) =
      some (uc.hintPurchases + 1) ∧
    (lookupA s1.userCodes ucId).map (fun c => c.revealedDigits) = some
      (if uc.revealedDigits.contains p.requestedDigitIndex then uc.revealedDigits
       else List.insertionSort (fun a b => a ≤ b)
         (uc.revealedDigits ++ [p.requestedDigitIndex])) :=
  confirmPayment_retry s pid tid now tid2 now2 s1 p ucId uc hcodes hp hf h

theorem confirm_payment_retry_safe_witness :
    confirmPayment confirmedStore 2 101 60 = (ConfirmResp.alreadyProcessed, confirmedStore) ∧
    (lookupA confirmedStore.userCodes 1).map (fun c => c.hintPurchases) =
      some (winUC0.hintPurchases + 1) ∧
    (lookupA confirmedStore.userCodes 1).map (fun c => c.revealedDigits) = some
      (if winUC0.revealedDigits.contains pendPay.requestedDigitIndex then
        winUC0.revealedDigits
       else List.insertionSort (fun a b => a ≤ b)
         (winUC0.revealedDigits ++ [pendPay.requestedDigitIndex])) :=
  confirm_payment_retry_safe (runOps pendOps) 2 100 50 101 60 confirmedStore pendPay 1
    winUC0 (by decide) (by decide) (by decide) (by decide)

/-- C5: refuted by execution of the model.  A player opens four pending
hint payments before any of them is confirmed (requestHint only checks
hintPurchases, which stays 0 while payments are pending) and the webhook
then confirms all four: the reachable store holds a code record with four
revealed digit positions and hintPurchases = 4, exceeding the hint quota
of 3, because confirmPayment never rechecks the quota. -/
theorem hint_quota_violated :
    (lookupA (runOps hintBugOps).userCodes 1).map
      (fun uc => (uc.revealedDigits, uc.hintPurchases)) = some ([0, 1, 2, 3], 4) := by
  decide

/-- C6: in every reachable store state, no two code records of the same
round hold the same secret digit sequence: assignSecretCode filters its
candidates against the codes of the round inside the same transaction. -/
theorem codes_unique_per_round (ops : List Op) :
    (runOps ops).userCodes.Pairwise
      (fun a b => a.2.roundId = b.2.roundId → a.2.secretCode ≠ b.2.secretCode) :=
  (inv_runOps ops).codesUnique

/-- C7: every code produced by the client generator (for any random stream,
any set of used codes and any fallback timestamp, including the
deterministic fallback after 1000 failed attempts) and every code produced
by the server generator has length 7, digits not all identical, and no run
of four identical consecutive digits. -/
theorem generated_codes_valid (rand : Nat → Nat) (used : List (List Nat)) (t : Nat)
    (fuel : Nat) (c : List Nat)
    (h : generateSecretCode rand fuel = some c) :
    (isNotAllSame (generateValidCode rand used t) = true ∧
     isValidConsecutive (generateValidCode rand used t) = true ∧
     (generateValidCode rand used t).length = 7) ∧
    (isNotAllSame c = true ∧ isValidConsecutive c = true ∧ c.length = 7) :=
  ⟨generateValidCode_spec rand used t, generateSecretCode_spec rand fuel c h⟩

theorem generated_codes_valid_witness :
    (isNotAllSame (generateValidCode (fun n => n) [] 0) = true ∧
     isValidConsecutive (generateValidCode (fun n => n) [] 0) = true ∧
     (generateValidCode (fun n => n) [] 0).length = 7) ∧
    (isNotAllSame [0, 1, 2, 3, 4, 5, 6] = true ∧
     isValidConsecutive [0, 1, 2, 3, 4, 5, 6] = true ∧
     ([0, 1, 2, 3, 4, 5, 6] : List Nat).length = 7) :=
  generated_codes_valid (fun n => n) [] 0 1 [0, 1, 2, 3, 4, 5, 6] (by decide)

/-- C8: on the rate limiter scenario store, ten guesses whose successive
spacing stays inside the 60 second window all commit, counting attempts 1
to 10; the eleventh inside the window is rejected with resourceExhausted
and leaves the store untouched; and a later guess 60 seconds or more after
the last counted attempt commits with the counter reset to 1. -/
theorem guess_rate_limiter_window
    (t0 t1 t2 t3 t4 t5 t6 t7 t8 t9 t10 t11 : Nat)
    (h1 : t1 - t0 < 60000) (h2 : t2 - t1 < 60000) (h3 : t3 - t2 < 60000)
    (h4 : t4 - t3 < 60000) (h5 : t5 - t4 < 60000) (h6 : t6 - t5 < 60000)
    (h7 : t7 - t6 < 60000) (h8 : t8 - t7 < 60000) (h9 : t9 - t8 < 60000)
    (h10 : t10 - t9 < 60000) (h11 : 60000 ≤ t11 - t9) :
    submitGuess (rlStore 0 none 0) 7 rlGuess t0 =
      Except.ok (loseResp, rlStore 1 (some t0) 1) ∧
    submitGuess (rlStore 1 (some t0) 1) 7 rlGuess t1 =
      Except.ok (loseResp, rlStore 2 (some t1) 2) ∧
    submitGuess (rlStore 2 (some t1) 2) 7 rlGuess t2 =
      Except.ok (loseResp, rlStore 3 (some t2) 3) ∧
    submitGuess (rlStore 3 (some t2) 3) 7 rlGuess t3 =
      Except.ok (loseResp, rlStore 4 (some t3) 4) ∧
    submitGuess (rlStore 4 (some t3) 4) 7 rlGuess t4 =
      Except.ok (loseResp, rlStore 5 (some t4) 5) ∧
    submitGuess (rlStore 5 (some t4) 5) 7 rlGuess t5 =
      Except.ok (loseResp, rlStore 6 (some t5) 6) ∧
    submitGuess (rlStore 6 (some t5) 6) 7 rlGuess t6 =
      Except.ok (loseResp, rlStore 7 (some t6) 7) ∧
    submitGuess (rlStore 7 (some t6) 7) 7 rlGuess t7 =
      Except.ok (loseResp, rlStore 8 (some t7) 8) ∧
    submitGuess (rlStore 8 (some t7) 8) 7 rlGuess t8 =
      Except.ok (loseResp, rlStore 9 (some t8) 9) ∧
    submitGuess (rlStore 9 (some t8) 9) 7 rlGuess t9 =
      Except.ok (loseResp, rlStore 10 (some t9) 10) ∧
    submitGuess (rlStore 10 (some t9) 10) 7 rlGuess t10 =
      Except.error ErrKind.resourceExhausted ∧
    submitGuess (rlStore 10 (some t9) 10) 7 rlGuess t11 =
      Except.ok (loseResp, rlStore 1 (some t11) 11) := by
  have r1 : rateCheck 0 none t0 = some 1 := rfl
  have r2 : rateCheck 1 (some t0) t1 = some 2 := by simp [rateCheck, h1]
  have r3 : rateCheck 2 (some t1) t2 = some 3 := by simp [rateCheck, h2]
  have r4 : rateCheck 3 (some t2) t3 = some 4 := by simp [rateCheck, h3]
  have r5 : rateCheck 4 (some t3) t4 = some 5 := by simp [rateCheck, h4]
  have r6 : rateCheck 5 (some t4) t5 = some 6 := by simp [rateCheck, h5]
  have r7 : rateCheck 6 (some t5) t6 = some 7 := by simp [rateCheck, h6]
  have r8 : rateCheck 7 (some t6) t7 = some 8 := by simp [rateCheck, h7]
  have r9 : rateCheck 8 (some t7) t8 = some 9 := by simp [rateCheck, h8]
  have r10 : rateCheck 9 (some t8) t9 = some 10 := by simp [rateCheck, h9]
  have r11 : rateCheck 10 (some t9) t10 = none := by simp [rateCheck, h10]
  have hno : ¬(t11 - t9 < 60000) := by omega
  have r12 : rateCheck 10 (some t9) t11 = some 1 := by
    simp [rateCheck, hno]
  exact ⟨by rw [submitGuess_rl, r1], by rw [submitGuess_rl, r2],
    by rw [submitGuess_rl, r3], by rw [submitGuess_rl, r4],
    by rw [submitGuess_rl, r5], by rw [submitGuess_rl, r6],
    by rw [submitGuess_rl, r7], by rw [submitGuess_rl, r8],
    by rw [submitGuess_rl, r9], by rw [submitGuess_rl, r10],
    by rw [submitGuess_rl, r11], by rw [submitGuess_rl, r12]⟩

theorem guess_rate_limiter_window_witness :
    submitGuess (rlStore 0 none 0) 7 rlGuess 0 =
      Except.ok (loseResp, rlStore 1 (some 0) 1) ∧
    submitGuess (rlStore 1 (some 0) 1) 7 rlGuess 1000 =
      Except.ok (loseResp, rlStore 2 (some 1000) 2) ∧
    submitGuess (rlStore 2 (some 1000) 2) 7 rlGuess 2000 =
      Except.ok (loseResp, rlStore 3 (some 2000) 3) ∧
    submitGuess (rlStore 3 (some 2000) 3) 7 rlGuess 3000 =
      Except.ok (loseResp, rlStore 4 (some 3000) 4) ∧
    submitGuess (rlStore 4 (some 3000) 4) 7 rlGuess 4000 =
      Except.ok (loseResp, rlStore 5 (some 4000) 5) ∧
    submitGuess (rlStore 5 (some 4000) 5) 7 rlGuess 5000 =
      Except.ok (loseResp, rlStore 6 (some 5000) 6) ∧
    submitGuess (rlStore 6 (some 5000) 6) 7 rlGuess 6000 =
      Except.ok (loseResp, rlStore 7 (some 6000) 7) ∧
    submitGuess (rlStore 7 (some 6000) 7) 7 rlGuess 7000 =
      Except.ok (loseResp, rlStore 8 (some 7000) 8) ∧
    submitGuess (rlStore 8 (some 7000) 8) 7 rlGuess 8000 =
      Except.ok (loseResp, rlStore 9 (some 8000) 9) ∧
    submitGuess (rlStore 9 (some 8000) 9) 7 rlGuess 9000 =
      Except.ok (loseResp, rlStore 10 (some 9000) 10) ∧
    submitGuess (rlStore 10 (some 9000) 10) 7 rlGuess 10000 =
      Except.error ErrKind.resourceExhausted ∧
    submitGuess (rlStore 10 (some 9000) 10) 7 rlGuess 69000 =
      Except.ok (loseResp, rlStore 1 (some 69000) 11) :=
  guess_rate_limiter_window 0 1000 2000 3000 4000 5000 6000 7000 8000 9000 10000 69000
    (by decide) (by decide) (by decide) (by decide) (by decide) (by decide)
    (by decide) (by decide) (by decide) (by decide) (by decide)

/-- C9: the player facing responses never depend on the stored secret
digit sequences: for any two stores that differ only in the stored
secrets, the assignCode response is the same whenever both calls commit,
the requestHint response is identical, and the submitGuess response is
identical whenever the correctness bit of the guess agrees (the one bit
the game is about); hence no response payload can contain the secret. -/
theorem secret_confidentiality (s1 s2 : Store) (uid pick now : Nat) (g : List Nat)
    (cands : List (List Nat)) (r1 r2 : AssignResp) (t1 t2 : Store)
    (h : secretEquiv s1 s2)
    (hbit : ∀ rid : Nat, (secretOf s1 uid rid).map (fun c => areCodesEqual g c) =
        (secretOf s2 uid rid).map (fun c => areCodesEqual g c))
    (ha1 : assignSecretCode s1 uid cands now = Except.ok (r1, t1))
    (ha2 : assignSecretCode s2 uid cands now = Except.ok (r2, t2)) :
    r1 = r2 ∧
    respOf (requestHint s1 uid pick now) = respOf (requestHint s2 uid pick now) ∧
    respOf (submitGuess s1 uid g now) = respOf (submitGuess s2 uid g now) :=
  ⟨assignCode_det s1 s2 uid cands now h r1 r2 t1 t2 ha1 ha2,
   requestHint_det s1 s2 uid pick now h,
   submitGuess_det s1 s2 uid g now h hbit⟩

theorem secret_confidentiality_witness :
    ({ roundId := 0, alreadyHadCode := true } : AssignResp) =
      { roundId := 0, alreadyHadCode := true } ∧
    respOf (requestHint (eqStore [0, 1, 2, 3, 4, 5, 9]) 7 0 0) =
      respOf (requestHint (eqStore [1, 1, 2, 3, 4, 5, 9]) 7 0 0) ∧
    respOf (submitGuess (eqStore [0, 1, 2, 3, 4, 5, 9]) 7 rlGuess 0) =
      respOf (submitGuess (eqStore [1, 1, 2, 3, 4, 5, 9]) 7 rlGuess 0) :=
  secret_confidentiality (eqStore [0, 1, 2, 3, 4, 5, 9]) (eqStore [1, 1, 2, 3, 4, 5, 9])
    7 0 0 rlGuess [[5, 5, 1, 2, 3, 4, 6]]
    { roundId := 0, alreadyHadCode := true } { roundId := 0, alreadyHadCode := true }
    (eqStore [0, 1, 2, 3, 4, 5, 9]) (eqStore [1, 1, 2, 3, 4, 5, 9])
    ⟨rfl, rfl, rfl, rfl,
      List.Forall₂.cons ⟨rfl, rfl, rfl, rfl, rfl, rfl, rfl⟩ List.Forall₂.nil,
      List.Forall₂.nil⟩
    (fun rid => by cases rid with | zero => rfl | succ n => rfl)
    (by decide) (by decide)

/-- C10: whenever startRound commits and at least one round exists, the
round it selects is one with the maximal roundNumber, and in the committed
store that round is stamped isActive = false with its endTime overwritten
by the fresh timestamp regardless of its previous state, while a fresh
round with the next roundNumber is created under the next generated id. -/
theorem start_round_overwrites_previous (s : Store) (now : Nat) (i : Nat) (r : Round)
    (nid : Nat) (s1 : Store)
    (hpick : pickLastRound s.rounds = some (i, r))
    (hkeys : ∀ p ∈ s.rounds, p.1 < s.nextId)
    (hnd : (s.rounds.map Prod.fst).Nodup)
    (hok : startRound s now = Except.ok (nid, s1)) :
    (∀ p ∈ s.rounds, p.2.roundNumber ≤ r.roundNumber) ∧
    (lookupA s1.rounds i = some { r with isActive := false, endTime := some now } ∧
     lookupA s1.rounds s.nextId = some
       { roundNumber := r.roundNumber + 1, isActive := true, winnerCount := 0,
         maxWinners := 10, startTime := now, endTime := none }) :=
  ⟨(pickLastRound_spec s.rounds (i, r) hpick).2,
   (startRound_effect s now i r nid s1 hpick hkeys hnd hok).2⟩

theorem start_round_overwrites_previous_witness :
    lookupA newRoundStore.rounds 1 =
      some { endedTop with isActive := false, endTime := some 100 } ∧
    lookupA newRoundStore.rounds 2 = some
      { roundNumber := endedTop.roundNumber + 1, isActive := true, winnerCount := 0,
        maxWinners := 10, startTime := 100, endTime := none } :=
  (start_round_overwrites_previous endedStore 100 1 endedTop 2 newRoundStore
    (by decide) (by decide) (by decide) (by decide)).2

end Codix

